import Mathlib

/-!
Ogg Vorbis loader of vgmstream (`src/meta/ogg_vorbis.c`).

A shallow embedding of the virtual-IO bridge (`ov_read_func`, `ov_seek_func`,
`ov_tell_func`, `ov_close_func`), of the decryption callbacks, of the format
detector `init_vgmstream_ogg_vorbis` and of the loop-comment scan of
`init_vgmstream_ogg_vorbis_callbacks`, followed by theorems about them.

Conventions of the embedding:
* a byte is a `Nat` below 256, a buffer is a `List Nat`;
* `size_t` values are naturals reduced modulo `2^64`; a value stored in an
  `int`/`int32_t` is reduced to the two's-complement range by `to_int32`, also
  the sum `loop_start + loop_length` of two `int32_t`, which wraps; a `size_t`
  stored in a signed 64-bit field is reduced by `to_int64`;
* 64-bit file offsets (`off_t`, `ogg_int64_t`) are plain integers and their
  arithmetic is exact; `long` is 64 bits wide and `atol` saturates at its
  bounds;
* a `for` loop runs `for_loop`, one `poke` per iteration;
* C strings are `List Char`;
* `int` variables that only carry a truth value are `Bool`.
-/

namespace OggVorbis

/-! ## Machine integers -/

/-- Conversion of an integer value to `size_t` (64 bits, unsigned). -/
def to_size_t (x : Int) : Nat := (x % 2 ^ 64).toNat

/-- Conversion of an integer value to `int` / `int32_t` (32 bits, two's complement). -/
def to_int32 (x : Int) : Int := (x + 2 ^ 31) % 2 ^ 32 - 2 ^ 31

/-- Conversion of an integer value to a signed 64-bit integer (`ogg_int64_t`). -/
def to_int64 (x : Int) : Int := (x + 2 ^ 63) % 2 ^ 64 - 2 ^ 63

/-- The bounds of `long` (64 bits). -/
def LONG_MAX : Int := 2 ^ 63 - 1
def LONG_MIN : Int := -2 ^ 63

/-- Saturation of an integer at the bounds of `long`, as `strtol` does. -/
def clamp_long (x : Int) : Int :=
  if x > LONG_MAX then LONG_MAX else if x < LONG_MIN then LONG_MIN else x

/-- Conversion of an integer value to `uint32_t`. -/
def to_uint32 (x : Int) : Nat := (x % 2 ^ 32).toNat

/-- Conversion of an integer value to `uint8_t`. -/
def to_uint8 (x : Int) : Nat := (x % 256).toNat

/-! ## The byte source -/

/-- Modelled from the spec: the `STREAMFILE` handle of `streamfile.h` (the
ByteSource: bounded reads at absolute offsets, a size query), declared
outside `ogg_vorbis.c`, as far as this loader uses it.  `read offset length`
is the sequence of bytes `read_streamfile(dst, offset, length, sf)` stores in
`dst` (its length is the call's return value), `size` is
`get_streamfile_size(sf)`, `name` is what `get_name` reports and `extension`
the file extension `check_extensions` looks at. -/
structure STREAMFILE where
  read : Int → Nat → List Nat
  size : Nat
  name : List Char
  extension : List Char

/-- A byte source never returns more bytes than were asked for. -/
def STREAMFILE.bounded (sf : STREAMFILE) : Prop :=
  ∀ (offset : Int) (length : Nat), (sf.read offset length).length ≤ length

/-- A byte source backed by a byte array: a read at `offset` returns the bytes
from there on, at most `length` of them, none for a negative offset. -/
def STREAMFILE.ofBytes (name extension : List Char) (file : List Nat) : STREAMFILE where
  read := fun offset length => if offset < 0 then [] else (file.drop offset.toNat).take length
  size := file.length
  name := name
  extension := extension

/-! ## The virtual file state -/

/-- Modelled from the spec: the struct `ogg_vorbis_streamfile` is declared in
`vgmstream.h`, outside `ogg_vorbis.c`; its fields are those the loader
reads and writes (the VirtualFileState: byte source, `start`, `size`,
`offset`, transform parameters).  This part holds the fields a decryption
callback can look at (every field but the callback pointer itself). -/
structure ov_datasource where
  streamfile : STREAMFILE
  start : Int
  offset : Int
  size : Int
  scd_xor : Nat
  scd_xor_length : Int
  sngw_xor : Nat

/-- The type of `decryption_callback`: `(ptr, size, nmemb, datasource)`, with the
buffer behind `ptr` passed in and the rewritten buffer returned (a callback
rewrites the buffer and only reads the data source, as the five of
`ogg_vorbis.c` do). -/
abbrev decryption_callback_t := List Nat → Nat → Nat → ov_datasource → List Nat

/-- The struct `ogg_vorbis_streamfile`; `none` is the null callback pointer. -/
structure ogg_vorbis_streamfile extends ov_datasource where
  decryption_callback : Option decryption_callback_t

/-! ## The virtual-IO bridge -/

/-- What a call of `ov_read_func` leaves behind: its return value, the bytes it
stored through `ptr`, and the updated state. -/
structure ov_read_result where
  items_read : Nat
  ptr : List Nat
  datasource : ogg_vorbis_streamfile

/-- The length `ov_read_func` passes to `read_streamfile`: `size * nmemb`
clamped to `size - offset` of the state. -/
def ov_read_max_bytes (size nmemb : Nat) (ov_streamfile : ogg_vorbis_streamfile) : Nat :=
  let max_bytes : Nat := (size * nmemb) % 2 ^ 64
  /- clamp for virtual filesize -/
  if max_bytes > to_size_t (ov_streamfile.size - ov_streamfile.offset) then
    to_size_t (ov_streamfile.size - ov_streamfile.offset)
  else max_bytes

/-- The function `ov_read_func`. -/
def ov_read_func (size nmemb : Nat) (ov_streamfile : ogg_vorbis_streamfile) : ov_read_result :=
  let real_offset := ov_streamfile.start + ov_streamfile.offset
  let max_bytes := ov_read_max_bytes size nmemb ov_streamfile
  let ptr := ov_streamfile.streamfile.read real_offset max_bytes
  let bytes_read := ptr.length
  let items_read := bytes_read / size
  /- may be encrypted -/
  let ptr := match ov_streamfile.decryption_callback with
    | some callback => callback ptr size items_read ov_streamfile.toov_datasource
    | none => ptr
  { items_read := items_read
    ptr := ptr
    datasource := { ov_streamfile with offset := ov_streamfile.offset + items_read * size } }

def SEEK_SET : Int := 0
def SEEK_CUR : Int := 1
def SEEK_END : Int := 2

/-- The function `ov_seek_func`: return value and updated state. -/
def ov_seek_func (ov_streamfile : ogg_vorbis_streamfile) (offset : Int) (whence : Int) :
    Int × ogg_vorbis_streamfile :=
  let base_offset : Option Int :=
    if whence = SEEK_SET then some 0
    else if whence = SEEK_CUR then some ov_streamfile.offset
    else if whence = SEEK_END then some ov_streamfile.size
    else none
  match base_offset with
  | none => (-1, ov_streamfile)
  | some base_offset =>
    let new_offset := base_offset + offset
    if new_offset < 0 ∨ new_offset > ov_streamfile.size then
      (-1, ov_streamfile) /- *must* return -1 if stream is unseekable -/
    else
      (0, { ov_streamfile with offset := new_offset })

/-- The function `ov_tell_func`. -/
def ov_tell_func (ov_streamfile : ogg_vorbis_streamfile) : Int :=
  ov_streamfile.offset

/-- The function `ov_close_func`: return value and (untouched) state. -/
def ov_close_func (ov_streamfile : ogg_vorbis_streamfile) : Int × ogg_vorbis_streamfile :=
  (0, ov_streamfile)

/-- The cursor invariant of the virtual file state. -/
def cursor_ok (ov_streamfile : ogg_vorbis_streamfile) : Prop :=
  0 ≤ ov_streamfile.offset ∧ ov_streamfile.offset ≤ ov_streamfile.size

/-- One call of the decoder into the bridge. -/
inductive ov_call where
  | read (size nmemb : Nat)
  | seek (offset : Int) (whence : Int)
  | tell
  | close

/-- The state after one call of the decoder into the bridge. -/
def ov_step (ov_streamfile : ogg_vorbis_streamfile) : ov_call → ogg_vorbis_streamfile
  | .read size nmemb => (ov_read_func size nmemb ov_streamfile).datasource
  | .seek offset whence => (ov_seek_func ov_streamfile offset whence).2
  | .tell => ov_streamfile
  | .close => (ov_close_func ov_streamfile).2

/-- The state after a sequence of calls (a session of the decoder). -/
def ov_run (ov_streamfile : ogg_vorbis_streamfile) (calls : List ov_call) : ogg_vorbis_streamfile :=
  calls.foldl ov_step ov_streamfile

/-! ## Decryption callbacks -/

/-- The loop `for (i = first; i < first + count; i++) body(i)` over a buffer. -/
def for_loop (body : Int → List Nat → List Nat) : Nat → Int → List Nat → List Nat
  | 0, _, ptr => ptr
  | count + 1, i, ptr => for_loop body count (i + 1) (body i ptr)

/-- The update `((uint8_t*)ptr)[index] = f(((uint8_t*)ptr)[index])`, the result
stored as a `uint8_t`; an index outside the buffer changes nothing. -/
def poke (ptr : List Nat) (index : Int) (f : Nat → Nat) : List Nat :=
  if 0 ≤ index then ptr.modify (fun b => f b % 256) index.toNat else ptr

/-- The value of `b ^ k` for a byte `b` and an `int` `k`, as stored in a `uint8_t`. -/
def xor_uint8 (b : Nat) (k : Int) : Nat := b ^^^ to_uint8 k

/-- The function `um3_ogg_decryption_callback`. -/
def um3_ogg_decryption_callback : decryption_callback_t :=
  fun ptr size nmemb ov_streamfile =>
    let bytes_read : Nat := (size * nmemb) % 2 ^ 64
    /- first 0x800 bytes are xor'd with 0xff -/
    if ov_streamfile.offset < 0x800 then
      let num_crypt := to_int32 (0x800 - ov_streamfile.offset)
      let num_crypt := if to_size_t num_crypt > bytes_read then to_int32 (bytes_read : Int) else num_crypt
      for_loop (fun i ptr => poke ptr i (fun b => xor_uint8 b 0xff)) num_crypt.toNat 0 ptr
    else ptr

/-- The function `kovs_ogg_decryption_callback`. -/
def kovs_ogg_decryption_callback : decryption_callback_t :=
  fun ptr size nmemb ov_streamfile =>
    let bytes_read : Nat := (size * nmemb) % 2 ^ 64
    /- first 0x100 bytes are xor'd with offset -/
    if ov_streamfile.offset < 0x100 then
      let max_offset := to_int32 (ov_streamfile.offset + (bytes_read : Int))
      let max_offset := if max_offset > 0x100 then 0x100 else max_offset
      let first := to_int32 ov_streamfile.offset
      for_loop (fun i ptr => poke ptr (i - ov_streamfile.offset) (fun b => xor_uint8 b i))
        (max_offset - first).toNat first ptr
    else ptr

/-- The function `psychic_ogg_decryption_callback`. -/
def psychic_ogg_decryption_callback : decryption_callback_t :=
  fun ptr size nmemb _ =>
    let bytes_read : Nat := (size * nmemb) % 2 ^ 64
    /- add 0x23 ('#') -/
    for_loop (fun i ptr => poke ptr i (fun b => b + 0x23)) bytes_read 0 ptr

/-- Modelled from the spec: `put_32bitBE` of `util.h` is outside
`ogg_vorbis.c`; it stores a 32-bit value as 4 bytes, most significant first (the key is
the first 4 header bytes, which were read as a big-endian integer). -/
def put_32bitBE (value : Nat) : List Nat :=
  [value / 2 ^ 24 % 256, value / 2 ^ 16 % 256, value / 2 ^ 8 % 256, value % 256]

/-- The string `"OggS"` as bytes. -/
def header_id : List Nat := [0x4f, 0x67, 0x67, 0x53]

/-- The nibble swap `((val << 4) & 0xf0) | ((val >> 4) & 0x0f)`. -/
def nibble_swap (val : Nat) : Nat := ((val <<< 4) &&& 0xf0) ||| ((val >>> 4) &&& 0x0f)

/-- The function `sngw_ogg_decryption_callback`.  The index `(offset + i) % 4` is
taken non-negative (offsets are never negative in a session). -/
def sngw_ogg_decryption_callback : decryption_callback_t :=
  fun ptr size nmemb ov_streamfile =>
    let bytes_read : Nat := (size * nmemb) % 2 ^ 64
    let key := put_32bitBE ov_streamfile.sngw_xor
    /- bytes are xor'd with key and nibble-swapped -/
    for_loop (fun i ptr =>
        if ov_streamfile.offset + i < 0x04 then
          /- replace key in the first 4 bytes with "OggS" -/
          poke ptr i (fun _ => header_id.getD ((ov_streamfile.offset + i) % 4).toNat 0)
        else
          poke ptr i (fun b =>
            let val := b ^^^ key.getD ((ov_streamfile.offset + i) % 4).toNat 0
            nibble_swap (val % 256)))
      bytes_read 0 ptr

/-- The table `key` of `isd_ogg_decryption_callback`. -/
def isd_key : List Nat :=
  [0xe0, 0x00, 0xe0, 0x00, 0xa0, 0x00, 0x00, 0x00, 0xe0, 0x00, 0xe0, 0x80, 0x40, 0x40, 0x40, 0x00]

/-- The function `isd_ogg_decryption_callback`.  The index `(offset + i) % 16` is
taken non-negative (offsets are never negative in a session). -/
def isd_ogg_decryption_callback : decryption_callback_t :=
  fun ptr size nmemb ov_streamfile =>
    let bytes_read : Nat := (size * nmemb) % 2 ^ 64
    /- bytes are xor'd with key -/
    for_loop (fun i ptr =>
        poke ptr i (fun b => xor_uint8 b (isd_key.getD ((ov_streamfile.offset + i) % 16).toNat 0)))
      bytes_read 0 ptr

/-! ## Helpers of the C library and of `streamfile.h` -/

/-- The test `strstr(s, prefix) == s`: the string `s` starts with `prefix`. -/
def starts_with (s : List Char) (pre : String) : Bool := pre.toList.isPrefixOf s

/-- The call `strrchr(s, c)`: the tail of `s` from the last `c` on, `none` (a
null pointer) when `c` does not occur. -/
def strrchr : List Char → Char → Option (List Char)
  | [], _ => none
  | x :: xs, c =>
    match strrchr xs c with
    | some tail => some tail
    | none => if x = c then some (x :: xs) else none

/-- The expression `strrchr(s, c) + 1`. -/
def after_last (s : List Char) (c : Char) : List Char :=
  match strrchr s c with
  | some tail => tail.drop 1
  | none => []

def isspace (c : Char) : Bool :=
  c = ' ' || c = '\t' || c = '\n' || c = '\x0b' || c = '\x0c' || c = '\r'

def isdigit (c : Char) : Bool := 48 ≤ c.toNat && c.toNat ≤ 57

/-- Reads decimal digits, accumulating their value; returns value and rest. -/
def scan_digits : Nat → List Char → Nat × List Char
  | acc, [] => (acc, [])
  | acc, c :: cs =>
    if isdigit c then scan_digits (acc * 10 + (c.toNat - 48)) cs else (acc, c :: cs)

/-- A non-empty run of decimal digits, `none` when the string has none in front. -/
def scan_unsigned : List Char → Option (Nat × List Char)
  | [] => none
  | c :: cs => if isdigit c then some (scan_digits 0 (c :: cs)) else none

/-- The integer conversion shared by `atol` and the `%d` of `sscanf`: leading
white space, an optional sign, decimal digits.  Returns the value (not yet
narrowed to the destination type) and the unread rest, `none` when no digit
is found. -/
def scan_int (s : List Char) : Option (Int × List Char) :=
  match s.dropWhile isspace with
  | [] => none
  | c :: cs =>
    if c = '-' then (scan_unsigned cs).map (fun r => (-(r.1 : Int), r.2))
    else if c = '+' then (scan_unsigned cs).map (fun r => ((r.1 : Int), r.2))
    else (scan_unsigned (c :: cs)).map (fun r => ((r.1 : Int), r.2))

/-- The call `atol(s)`; 0 when no conversion can be made.  A value outside the
range of `long` saturates at `LONG_MAX` / `LONG_MIN`. -/
def atol (s : List Char) : Int :=
  match scan_int s with
  | some r => clamp_long r.1
  | none => 0

/-- The call `sscanf(s, "%d,%d", &a, &b)`: the values stored through `&a` and
`&b`, `none` for an argument that is not assigned. -/
def sscanf_d_d (s : List Char) : Option Int × Option Int :=
  match scan_int s with
  | none => (none, none)
  | some (a, rest) =>
    match rest with
    | [] => (some a, none)
    | c :: rest =>
      if c = ',' then
        match scan_int rest with
        | none => (some a, none)
        | some (b, _) => (some a, some b)
      else (some a, none)

/-- The words of a comma-separated list. -/
def split_commas : List Char → List (List Char)
  | [] => [[]]
  | c :: cs =>
    if c = ',' then [] :: split_commas cs
    else
      match split_commas cs with
      | [] => [[c]]
      | w :: ws => (c :: w) :: ws

/-- Modelled from the spec: `check_extensions` of `streamfile.h` is outside
`ogg_vorbis.c`; per the spec the extension of the file is matched, without
regard to case, against a fixed set of extensions, here written as the
comma-separated list the callers pass. -/
def check_extensions (streamFile : STREAMFILE) (cmp_exts : String) : Bool :=
  (split_commas cmp_exts.toList).contains (streamFile.extension.map Char.toLower)

/-- Modelled from the spec: `read_32bitBE` of `streamfile.h` is outside
`ogg_vorbis.c`; per the spec it is the 4 bytes at `offset` read as a
big-endian integer (`int32_t`).  A read that does not deliver 4 bytes gives -1. -/
def read_32bitBE (offset : Int) (streamFile : STREAMFILE) : Int :=
  match streamFile.read offset 4 with
  | [b0, b1, b2, b3] => to_int32 ((b0 * 2 ^ 24 + b1 * 2 ^ 16 + b2 * 2 ^ 8 + b3 : Nat) : Int)
  | _ => -1

/-- Modelled from the spec: `read_32bitLE` of `streamfile.h` is outside
`ogg_vorbis.c`; per the spec it is the 4 bytes at `offset` read as a
little-endian 32-bit integer (`int32_t`).  A read that does not deliver 4 bytes
gives -1. -/
def read_32bitLE (offset : Int) (streamFile : STREAMFILE) : Int :=
  match streamFile.read offset 4 with
  | [b0, b1, b2, b3] => to_int32 ((b3 * 2 ^ 24 + b2 * 2 ^ 16 + b1 * 2 ^ 8 + b0 : Nat) : Int)
  | _ => -1

/-- Decimal digits of a natural number, most significant first (`fuel` bounds
the number of digits). -/
def decimal_digits : Nat → Nat → List Char
  | 0, _ => []
  | fuel + 1, n =>
    if n < 10 then [Char.ofNat (48 + n)]
    else decimal_digits fuel (n / 10) ++ [Char.ofNat (48 + n % 10)]

/-- The decimal numeral of an integer, as written in a comment tag. -/
def decimal (z : Int) : List Char :=
  if z < 0 then '-' :: decimal_digits (z.natAbs + 1) z.natAbs
  else decimal_digits (z.natAbs + 1) z.natAbs

/-- The comment tag `key ++ value`. -/
def tag (key : String) (value : List Char) : List Char := key.toList ++ value

/-! ## The detector `init_vgmstream_ogg_vorbis` -/

/-- Modelled from the spec: the enumeration `meta_t` is declared in
`vgmstream.h`, outside `ogg_vorbis.c`; these are the container variant
tags this loader assigns (`meta_unset` is the value of a zeroed field). -/
inductive meta_t where
  | meta_unset | meta_OGG_VORBIS | meta_OGG_UM3 | meta_OGG_KOVS
  | meta_OGG_PSYCHIC | meta_OGG_SNGW | meta_OGG_ISD
  deriving DecidableEq, Repr

inductive layout_t where
  | layout_unset | layout_ogg_vorbis
  deriving DecidableEq, Repr

inductive coding_t where
  | coding_unset | coding_ogg_vorbis
  deriving DecidableEq, Repr

/-- Modelled from the spec: the struct `vgm_vorbis_info_t` is declared in
`meta.h`, outside `ogg_vorbis.c`; it is the detection result handed to
the builder (variant tag, transform and its parameters, seed loop info,
virtual size override), with the fields the loader reads and writes. -/
structure vgm_vorbis_info_t where
  loop_flag : Bool
  loop_start : Int
  loop_length_found : Bool
  loop_length : Int
  loop_end_found : Bool
  loop_end : Int
  meta_type : meta_t
  layout_type : layout_t
  stream_size : Nat
  total_subsongs : Int
  decryption_callback : Option decryption_callback_t
  scd_xor : Nat
  scd_xor_length : Int
  sngw_xor : Nat

/-- The initial value `vgm_vorbis_info_t inf = {0}`. -/
def inf_zero : vgm_vorbis_info_t where
  loop_flag := false
  loop_start := 0
  loop_length_found := false
  loop_length := 0
  loop_end_found := false
  loop_end := 0
  meta_type := .meta_unset
  layout_type := .layout_unset
  stream_size := 0
  total_subsongs := 0
  decryption_callback := none
  scd_xor := 0
  scd_xor_length := 0
  sngw_xor := 0

/-- The flags set by the extension check. -/
structure extension_flags where
  is_ogg : Bool
  is_um3 : Bool
  is_kovs : Bool
  is_sngw : Bool
  is_isd : Bool
  deriving DecidableEq, Repr

/-- The extension check at the head of `init_vgmstream_ogg_vorbis`; `none` is
`goto fail`. -/
def check_extension (streamFile : STREAMFILE) : Option extension_flags :=
  if check_extensions streamFile "ogg,logg" then
    some { is_ogg := true, is_um3 := false, is_kovs := false, is_sngw := false, is_isd := false }
  else if check_extensions streamFile "um3" then
    some { is_ogg := false, is_um3 := true, is_kovs := false, is_sngw := false, is_isd := false }
  else if check_extensions streamFile "kvs,kovs" then
    some { is_ogg := false, is_um3 := false, is_kovs := true, is_sngw := false, is_isd := false }
  else if check_extensions streamFile "sngw" then
    some { is_ogg := false, is_um3 := false, is_kovs := false, is_sngw := true, is_isd := false }
  else if check_extensions streamFile "isd" then
    some { is_ogg := false, is_um3 := false, is_kovs := false, is_sngw := false, is_isd := true }
  else none

/-- The arguments of the call of `init_vgmstream_ogg_vorbis_callbacks` that ends
`init_vgmstream_ogg_vorbis` (the callback set passed there is `NULL`). -/
structure builder_args where
  filename : List Char
  start : Int
  vgm_inf : vgm_vorbis_info_t

/-- The body of `init_vgmstream_ogg_vorbis` up to its final call: `none` when
it reaches `fail` (it then returns `NULL` without calling the builder),
otherwise the arguments the builder is called with. -/
def init_vgmstream_ogg_vorbis_args (streamFile : STREAMFILE) : Option builder_args :=
  let inf := inf_zero
  let start_offset : Int := 0
  /- check extension -/
  match check_extension streamFile with
  | none => none
  | some ext =>
    let filename := streamFile.name
    /- check standard Ogg Vorbis -/
    let ogg : Option (Bool × vgm_vorbis_info_t) :=
      if ext.is_ogg then
        /- check Psychic Software obfuscation (Darkwind: War on Wheels PC) -/
        if read_32bitBE 0x00 streamFile = 0x2c444430 then
          some (true, { inf with decryption_callback := some psychic_ogg_decryption_callback })
        else if read_32bitBE 0x00 streamFile ≠ 0x4f676753 then
          none /- not known (ex. Wwise) -/
        else some (false, inf)
      else some (false, inf)
    match ogg with
    | none => none
    | some (is_psychic, inf) =>
      /- check "Ultramarine3" (???), may be encrypted -/
      let inf :=
        if ext.is_um3 then
          if read_32bitBE 0x00 streamFile ≠ 0x4f676753 then
            { inf with decryption_callback := some um3_ogg_decryption_callback }
          else inf
        else inf
      /- check KOVS (Koei Tecmo games), encrypted and has an actual header -/
      let kovs : Option (vgm_vorbis_info_t × Int) :=
        if ext.is_kovs then
          if read_32bitBE 0x00 streamFile ≠ 0x4b4f5653 then none
          else
            let inf := { inf with loop_start := read_32bitLE 0x08 streamFile }
            let inf := { inf with loop_flag := decide (inf.loop_start ≠ 0) }
            let inf := { inf with decryption_callback := some kovs_ogg_decryption_callback }
            some (inf, 0x20)
        else some (inf, start_offset)
      match kovs with
      | none => none
      | some (inf, start_offset) =>
        /- check SNGW (Capcom's MT Framework PC games), may be encrypted -/
        let inf :=
          if ext.is_sngw then
            if read_32bitBE 0x00 streamFile ≠ 0x4f676753 then
              let inf := { inf with sngw_xor := to_uint32 (read_32bitBE 0x00 streamFile) }
              { inf with decryption_callback := some sngw_ogg_decryption_callback }
            else inf
          else inf
        /- check ISD (Gunvolt PC) -/
        let inf :=
          if ext.is_isd then { inf with decryption_callback := some isd_ogg_decryption_callback }
          else inf
        let inf :=
          if ext.is_um3 then { inf with meta_type := .meta_OGG_UM3 }
          else if ext.is_kovs then { inf with meta_type := .meta_OGG_KOVS }
          else if is_psychic then { inf with meta_type := .meta_OGG_PSYCHIC }
          else if ext.is_sngw then { inf with meta_type := .meta_OGG_SNGW }
          else if ext.is_isd then { inf with meta_type := .meta_OGG_ISD }
          else { inf with meta_type := .meta_OGG_VORBIS }
        let inf := { inf with layout_type := .layout_ogg_vorbis }
        some { filename := filename, start := start_offset, vgm_inf := inf }

/-! ## The builder `init_vgmstream_ogg_vorbis_callbacks` -/

/-- The local variables of the loop-comment scan. -/
structure loop_vars where
  loop_flag : Bool
  loop_start : Int
  loop_length_found : Bool
  loop_length : Int
  loop_end_found : Bool
  loop_end : Int
  deriving DecidableEq, Repr

/-- The initial values of the scan variables, copied from `vgm_inf` into
`int32_t` locals. -/
def loop_vars_init (vgm_inf : vgm_vorbis_info_t) : loop_vars where
  loop_flag := vgm_inf.loop_flag
  loop_start := to_int32 vgm_inf.loop_start
  loop_length_found := vgm_inf.loop_length_found
  loop_length := to_int32 vgm_inf.loop_length
  loop_end_found := vgm_inf.loop_end_found
  loop_end := to_int32 vgm_inf.loop_end

/-- The assignment of the results of `sscanf(.., "%d,%d", &loop_start, &loop_end)`. -/
def store_start_end (v : loop_vars) (r : Option Int × Option Int) : loop_vars :=
  let v := match r.1 with
    | some a => { v with loop_start := to_int32 a }
    | none => v
  match r.2 with
  | some b => { v with loop_end := to_int32 b }
  | none => v

/-- The body of the loop over the comments: one `user_comment`.  The value of
`atol` is a `long` and the difference `atol(..) - loop_start` is taken in
`long`; stored in an `int32_t`, a difference that wraps in 64 bits gives the
same value as the exact one (`to_int32_to_int64`). -/
def scan_comment (v : loop_vars) (user_comment : List Char) : loop_vars :=
  if starts_with user_comment "loop_start=" || /- PSO4 -/
     starts_with user_comment "LOOP_START=" || /- PSO4 -/
     starts_with user_comment "COMMENT=LOOPPOINT=" ||
     starts_with user_comment "LOOPSTART=" ||
     starts_with user_comment "um3.stream.looppoint.start=" ||
     starts_with user_comment "LOOP_BEGIN=" || /- Hatsune Miku: Project Diva F (PS3) -/
     starts_with user_comment "LoopStart=" then /- Devil May Cry 4 (PC) -/
    let v := { v with loop_start := to_int32 (atol (after_last user_comment '=')) }
    { v with loop_flag := decide (v.loop_start ≥ 0) }
  else if starts_with user_comment "LOOPLENGTH=" then /- (LOOPSTART pair) -/
    let v := { v with loop_length := to_int32 (atol (after_last user_comment '=')) }
    { v with loop_length_found := true }
  else if starts_with user_comment "title=-lps" then /- Memories Off #5 (PC) -/
    let v := { v with loop_start := to_int32 (atol (user_comment.drop 10)) }
    { v with loop_flag := decide (v.loop_start ≥ 0) }
  else if starts_with user_comment "album=-lpe" then /- (title=-lps pair) -/
    let v := { v with loop_end := to_int32 (atol (user_comment.drop 10)) }
    { v with loop_flag := true, loop_end_found := true }
  else if starts_with user_comment "LoopEnd=" then /- (LoopStart pair) -/
    if v.loop_flag then
      let v := { v with loop_length := to_int32 (atol (after_last user_comment '=') - v.loop_start) }
      { v with loop_length_found := true }
    else v
  else if starts_with user_comment "LOOP_END=" then /- (LOOP_BEGIN pair) -/
    if v.loop_flag then
      let v := { v with loop_length := to_int32 (atol (after_last user_comment '=') - v.loop_start) }
      { v with loop_length_found := true }
    else v
  else if starts_with user_comment "lp=" then
    let v := store_start_end v (sscanf_d_d (after_last user_comment '='))
    { v with loop_flag := true, loop_end_found := true }
  else if starts_with user_comment "LOOPDEFS=" then /- Fairy Fencer F: Advent Dark Force -/
    let v := store_start_end v (sscanf_d_d (after_last user_comment '='))
    { v with loop_flag := true, loop_end_found := true }
  else if starts_with user_comment "COMMENT=loop(" then /- Zero Time Dilemma (PC) -/
    let v := store_start_end v (sscanf_d_d (after_last user_comment '('))
    { v with loop_flag := true, loop_end_found := true }
  else v

/-- The loop `for (i = 0; i < comment->comments; i++)` over the comments. -/
def scan_comments (v : loop_vars) (user_comments : List (List Char)) : loop_vars :=
  user_comments.foldl scan_comment v

/-- The set `ov_callbacks` of bridge functions handed to the decoder. -/
structure ov_callbacks where
  read_func : Nat → Nat → ogg_vorbis_streamfile → ov_read_result
  seek_func : ogg_vorbis_streamfile → Int → Int → Int × ogg_vorbis_streamfile
  close_func : ogg_vorbis_streamfile → Int × ogg_vorbis_streamfile
  tell_func : ogg_vorbis_streamfile → Int

/-- The callbacks used when the caller passes none. -/
def default_callbacks : ov_callbacks where
  read_func := ov_read_func
  seek_func := ov_seek_func
  close_func := ov_close_func
  tell_func := ov_tell_func

/-- An open decoder session (`OggVorbis_File`), as far as the loader queries
it: `ov_info` (channels, rate), `ov_comment` and `ov_pcm_total`. -/
structure OggVorbis_File where
  channels : Int
  rate : Int
  user_comments : List (List Char)
  pcm_total : Int

/-- Modelled from the spec: the struct `ogg_vorbis_codec_data` is declared in
`vgmstream.h`, outside `ogg_vorbis.c`; it holds the decoder session, the
bitstream index and the virtual file state as the builder sets it up. -/
structure ogg_vorbis_codec_data where
  ogg_vorbis_file : OggVorbis_File
  bitstream : Int
  ov_streamfile : ogg_vorbis_streamfile

/-- Modelled from the spec: the struct `VGMSTREAM` is declared in `vgmstream.h`,
outside `ogg_vorbis.c`; it is the stream descriptor, as far as the
loader fills it.  The sample counts are `int32_t`, like the loop variables of
the loader. -/
structure VGMSTREAM where
  num_samples : Int
  sample_rate : Int
  channels : Int
  coding_type : coding_t
  layout_type : layout_t
  meta_type : meta_t
  loop_flag : Bool
  loop_start_sample : Int
  loop_end_sample : Int
  num_streams : Int
  stream_size : Nat
  codec_data : Option ogg_vorbis_codec_data

/-- The collaborators of the builder that live outside this file: the decoder
library (`ov_test_callbacks`, `ov_open_callbacks`; `true` / `some` stand for
the return value 0), the allocator, the reopening of the byte source and
`allocate_vgmstream`. -/
structure environment where
  ov_test_callbacks : ogg_vorbis_streamfile → ov_callbacks → Bool
  ov_open_callbacks : ogg_vorbis_streamfile → ov_callbacks → Option OggVorbis_File
  calloc_ok : Bool
  reopen : STREAMFILE → List Char → Option STREAMFILE
  allocate_vgmstream : Int → Bool → Option VGMSTREAM

/-- The virtual size the builder gives the stream. -/
def builder_stream_size (streamFile : STREAMFILE) (start : Int) (vgm_inf : vgm_vorbis_info_t) :
    Nat :=
  if vgm_inf.stream_size ≠ 0 then vgm_inf.stream_size
  else to_size_t ((streamFile.size : Int) - start)

/-- The virtual file state the builder sets up over a byte source (both for
the test session and for the real one).  The `size_t` value `stream_size` is
stored in the signed 64-bit field `size`. -/
def builder_streamfile (streamfile : STREAMFILE) (start : Int) (stream_size : Nat)
    (vgm_inf : vgm_vorbis_info_t) : ogg_vorbis_streamfile where
  streamfile := streamfile
  start := start
  offset := 0
  size := to_int64 stream_size
  decryption_callback := vgm_inf.decryption_callback
  scd_xor := vgm_inf.scd_xor
  scd_xor_length := vgm_inf.scd_xor_length
  sngw_xor := vgm_inf.sngw_xor

/-- The clamp `if (loop_end_sample > num_samples) loop_end_sample = num_samples`. -/
def clamp_loop_end (vgmstream : VGMSTREAM) : VGMSTREAM :=
  if vgmstream.loop_end_sample > vgmstream.num_samples then
    { vgmstream with loop_end_sample := vgmstream.num_samples }
  else vgmstream

/-- The block guarded by `if (loop_flag)` at the end of the builder.  The sum
`loop_start + loop_length` of two `int32_t`, stored in the `int32_t` field
`loop_end_sample`, wraps around in 32 bits. -/
def set_loop_points (vgmstream : VGMSTREAM) (v : loop_vars) : VGMSTREAM :=
  let vgmstream := { vgmstream with loop_start_sample := v.loop_start }
  let vgmstream :=
    if v.loop_length_found then
      { vgmstream with loop_end_sample := to_int32 (v.loop_start + v.loop_length) }
    else if v.loop_end_found then
      { vgmstream with loop_end_sample := v.loop_end }
    else
      { vgmstream with loop_end_sample := vgmstream.num_samples }
  let vgmstream := { vgmstream with loop_flag := v.loop_flag }
  clamp_loop_end vgmstream

/-- The tail of the builder: filling the allocated `VGMSTREAM`. -/
def fill_vgmstream (vgmstream : VGMSTREAM) (data : ogg_vorbis_codec_data) (stream_size : Nat)
    (vgm_inf : vgm_vorbis_info_t) (v : loop_vars) : VGMSTREAM :=
  let vgmstream := { vgmstream with codec_data := some data } /- store our fun extra datas -/
  let vgmstream := { vgmstream with channels := data.ogg_vorbis_file.channels }
  let vgmstream := { vgmstream with sample_rate := data.ogg_vorbis_file.rate }
  let vgmstream := { vgmstream with num_streams := vgm_inf.total_subsongs }
  let vgmstream := { vgmstream with stream_size := stream_size }
  /- let libvorbisfile find total samples -/
  let vgmstream := { vgmstream with num_samples := to_int32 data.ogg_vorbis_file.pcm_total }
  let vgmstream := if v.loop_flag then set_loop_points vgmstream v else vgmstream
  let vgmstream := { vgmstream with coding_type := .coding_ogg_vorbis }
  let vgmstream := { vgmstream with layout_type := vgm_inf.layout_type }
  { vgmstream with meta_type := vgm_inf.meta_type }

/-- The function `init_vgmstream_ogg_vorbis_callbacks`; `none` is the `NULL`
returned through `fail`. -/
def init_vgmstream_ogg_vorbis_callbacks (env : environment) (streamFile : STREAMFILE)
    (filename : List Char) (callbacks_p : Option ov_callbacks) (start : Int)
    (vgm_inf : vgm_vorbis_info_t) : Option VGMSTREAM :=
  let v := loop_vars_init vgm_inf
  let stream_size := builder_stream_size streamFile start vgm_inf
  let callbacks := match callbacks_p with
    | some callbacks => callbacks
    | none => default_callbacks
  /- test if this is a proper Ogg Vorbis file, with the current (from init_x) STREAMFILE -/
  let temp_streamfile := builder_streamfile streamFile start stream_size vgm_inf
  if !env.ov_test_callbacks temp_streamfile callbacks then none
  else
    /- proceed to init codec_data and reopen a STREAMFILE for this stream -/
    if !env.calloc_ok then none
    else
      match env.reopen streamFile filename with
      | none => none
      | some streamfile =>
        let ov_streamfile := builder_streamfile streamfile start stream_size vgm_inf
        /- open the ogg vorbis file for real -/
        match env.ov_open_callbacks ov_streamfile callbacks with
        | none => none
        | some ovf =>
          /- get info from bitstream 0 -/
          let data : ogg_vorbis_codec_data :=
            { ogg_vorbis_file := ovf, bitstream := 0, ov_streamfile := ov_streamfile }
          /- search for loop comments -/
          let v := scan_comments v ovf.user_comments
          /- build the VGMSTREAM -/
          match env.allocate_vgmstream ovf.channels v.loop_flag with
          | none => none
          | some vgmstream => some (fill_vgmstream vgmstream data stream_size vgm_inf v)

/-- A 3-byte file. -/
def sample_file3 : STREAMFILE := STREAMFILE.ofBytes [] [] [0x10, 0x20, 0x30]

/-- A plain session over `sample_file3`: window `[0, 3)`, no callback. -/
def sample_state3 : ogg_vorbis_streamfile := builder_streamfile sample_file3 0 3 inf_zero

/-- A KOVS file: the 0x20-byte header (magic `KOVS`, loop start 44100 at 0x08)
followed by 6 data bytes, the first four being `OggS` xor'd with 0, 1, 2, 3. -/
def sample_kovs_bytes : List Nat :=
  [0x4b, 0x4f, 0x56, 0x53, 0, 0, 0, 0, 0x44, 0xac, 0, 0, 0, 0, 0, 0,
   0, 0, 0, 0, 0, 0, 0, 0, 0, 0, 0, 0, 0, 0, 0, 0,
   0x4f, 0x66, 0x65, 0x50, 0x04, 0x07]

def sample_kovs_file : STREAMFILE :=
  STREAMFILE.ofBytes "song.kvs".toList "kvs".toList sample_kovs_bytes

/-- The session the builder sets up over `sample_kovs_file`: data start 0x20,
virtual size 6, the KOVS callback. -/
def sample_kovs_state : ogg_vorbis_streamfile :=
  builder_streamfile sample_kovs_file 0x20 6
    { inf_zero with decryption_callback := some kovs_ogg_decryption_callback }

/-- The key prefixes that mark a loop start (first branch of the scan). -/
def loop_start_keys : List String :=
  ["loop_start=", "LOOP_START=", "COMMENT=LOOPPOINT=", "LOOPSTART=",
   "um3.stream.looppoint.start=", "LOOP_BEGIN=", "LoopStart="]

/-- The key prefixes of a loop end paired with a loop start tag. -/
def loop_end_keys : List String := ["LoopEnd=", "LOOP_END="]

/-- The key prefixes of the combined `start,end` tags, each with the character
after whose last occurrence the two numbers are scanned. -/
def loop_pair_keys : List (String × Char) :=
  [("lp=", '='), ("LOOPDEFS=", '='), ("COMMENT=loop(", '(')]

/-- The comment is one of those whose branch of the scan assigns `loop_start`. -/
def sets_loop_start (user_comment : List Char) : Bool :=
  starts_with user_comment "loop_start=" ||
  starts_with user_comment "LOOP_START=" ||
  starts_with user_comment "COMMENT=LOOPPOINT=" ||
  starts_with user_comment "LOOPSTART=" ||
  starts_with user_comment "um3.stream.looppoint.start=" ||
  starts_with user_comment "LOOP_BEGIN=" ||
  starts_with user_comment "LoopStart=" ||
  starts_with user_comment "title=-lps" ||
  starts_with user_comment "lp=" ||
  starts_with user_comment "LOOPDEFS=" ||
  starts_with user_comment "COMMENT=loop("

/-- Every collaborator of the builder succeeds: the test session opens, the
allocation succeeds, the byte source reopens as `streamfile`, the real session
opens as `ovf`, and `allocate_vgmstream` returns `vgmstream`. -/
def builder_succeeds (env : environment) (streamFile : STREAMFILE) (filename : List Char)
    (callbacks_p : Option ov_callbacks) (start : Int) (vgm_inf : vgm_vorbis_info_t)
    (streamfile : STREAMFILE) (ovf : OggVorbis_File) (vgmstream : VGMSTREAM) : Prop :=
  env.ov_test_callbacks
      (builder_streamfile streamFile start (builder_stream_size streamFile start vgm_inf) vgm_inf)
      (callbacks_p.getD default_callbacks) = true ∧
  env.calloc_ok = true ∧
  env.reopen streamFile filename = some streamfile ∧
  env.ov_open_callbacks
      (builder_streamfile streamfile start (builder_stream_size streamFile start vgm_inf) vgm_inf)
      (callbacks_p.getD default_callbacks) = some ovf ∧
  env.allocate_vgmstream ovf.channels
      (scan_comments (loop_vars_init vgm_inf) ovf.user_comments).loop_flag = some vgmstream

/-- The loop end the builder assigns before clamping: start plus length (as an
`int32_t`) if a length was found, else the end if one was found, else the
total `T`. -/
def loop_end_candidate (v : loop_vars) (T : Int) : Int :=
  if v.loop_length_found then to_int32 (v.loop_start + v.loop_length)
  else if v.loop_end_found then v.loop_end
  else T

/-- A zeroed `VGMSTREAM`. -/
def VGMSTREAM_zero : VGMSTREAM where
  num_samples := 0
  sample_rate := 0
  channels := 0
  coding_type := .coding_unset
  layout_type := .layout_unset
  meta_type := .meta_unset
  loop_flag := false
  loop_start_sample := 0
  loop_end_sample := 0
  num_streams := 0
  stream_size := 0
  codec_data := none

/-- An environment in which every collaborator succeeds: the decoder reports a
stereo 44100 Hz stream with the given comments and total sample count, and
`allocate_vgmstream` hands out a zeroed descriptor with channels and loop
flag set. -/
def sample_env (user_comments : List (List Char)) (pcm_total : Int) : environment where
  ov_test_callbacks := fun _ _ => true
  ov_open_callbacks := fun _ _ =>
    some { channels := 2, rate := 44100, user_comments := user_comments, pcm_total := pcm_total }
  calloc_ok := true
  reopen := fun streamFile _ => some streamFile
  allocate_vgmstream := fun channels loop_flag =>
    some { VGMSTREAM_zero with channels := channels, loop_flag := loop_flag }

/-- A plain Ogg file (only its magic matters here). -/
def sample_ogg_file : STREAMFILE :=
  STREAMFILE.ofBytes "song.ogg".toList "ogg".toList [0x4f, 0x67, 0x67, 0x53, 0, 2, 0, 0]

/-- The detection result for a KOVS file: loop start from the header word at
0x08, loop flag set when it is non-zero, the KOVS callback and variant tag. -/
def kovs_inf (streamFile : STREAMFILE) : vgm_vorbis_info_t :=
  { inf_zero with
    loop_start := read_32bitLE 0x08 streamFile
    loop_flag := decide (read_32bitLE 0x08 streamFile ≠ 0)
    decryption_callback := some kovs_ogg_decryption_callback
    meta_type := .meta_OGG_KOVS
    layout_type := .layout_ogg_vorbis }

/-- What `um3_ogg_decryption_callback` stores for the byte `b` at virtual offset `p`. -/
def um3_byte (p : Int) (b : Nat) : Nat := if p < 0x800 then (b ^^^ 0xff) % 256 else b

/-- What `kovs_ogg_decryption_callback` stores for the byte `b` at virtual offset `p`. -/
def kovs_byte (p : Int) (b : Nat) : Nat := if p < 0x100 then (b ^^^ p.toNat) % 256 else b

/-- What `psychic_ogg_decryption_callback` stores for the byte `b`. -/
def psychic_byte (b : Nat) : Nat := (b + 0x23) % 256

/-- What `sngw_ogg_decryption_callback` with key `sngw_xor` stores for the byte
`b` at virtual offset `p`. -/
def sngw_byte (sngw_xor : Nat) (p : Int) (b : Nat) : Nat :=
  (if p < 0x04 then header_id.getD (p % 4).toNat 0
   else nibble_swap ((b ^^^ (put_32bitBE sngw_xor).getD (p % 4).toNat 0) % 256)) % 256

/-- What `isd_ogg_decryption_callback` stores for the byte `b` at virtual offset `p`. -/
def isd_byte (p : Int) (b : Nat) : Nat := (b ^^^ isd_key.getD (p % 16).toNat 0) % 256

/-- A data source at virtual offset `offset` with SNGW key `sngw_xor` (the other
fields do not matter to the callbacks). -/
def sample_datasource (offset : Int) (sngw_xor : Nat) : ov_datasource where
  streamfile := sample_file3
  start := 0
  offset := offset
  size := 0x10000
  scd_xor := 0
  scd_xor_length := 0
  sngw_xor := sngw_xor

/-- A callback is independent of how a read is chunked: for every virtual
offset `o ≥ 0` and all buffers `a`, `b` with `o + |a| + |b|` within `int` range,
the callback at `o` on `a ++ b` is the callback at `o` on `a` followed by the
callback at `o + |a|` on `b`. -/
def chunk_independent (callback : decryption_callback_t) : Prop :=
  ∀ (a b : List Nat) (st : ov_datasource), 0 ≤ st.offset →
    st.offset + (a.length : Int) + (b.length : Int) < 2 ^ 31 →
    callback (a ++ b) 1 (a ++ b).length st =
      callback a 1 a.length st ++
        callback b 1 b.length { st with offset := st.offset + (a.length : Int) }

/-- A Psychic Software file with extension `.ogg`: the obfuscation signature
followed by two more bytes. -/
def sample_psychic_file : STREAMFILE :=
  STREAMFILE.ofBytes "song.ogg".toList "ogg".toList [0x2c, 0x44, 0x44, 0x30, 0xdd, 0xdf]

/-- A 16-byte `.kvs` file: the magic `KOVS` and 12 more bytes, shorter than the
0x20-byte header. -/
def sample_short_kovs_file : STREAMFILE :=
  STREAMFILE.ofBytes "short.kvs".toList "kvs".toList
    [0x4b, 0x4f, 0x56, 0x53, 0, 0, 0, 0, 0x44, 0xac, 0, 0, 0, 0, 0, 0]

/-! ## Basic facts -/

theorem to_size_t_le (x : Int) (hx : 0 ≤ x) : (to_size_t x : Int) ≤ x := by
  unfold to_size_t
  omega

theorem ofBytes_bounded (name extension : List Char) (file : List Nat) :
    (STREAMFILE.ofBytes name extension file).bounded := by
  intro offset length
  simp only [STREAMFILE.ofBytes]
  split
  · simp
  · simp only [List.length_take]; omega

theorem ov_read_max_bytes_le (size nmemb : Nat) (st : ogg_vorbis_streamfile)
    (hinv : cursor_ok st) : (ov_read_max_bytes size nmemb st : Int) ≤ st.size - st.offset := by
  have hx : 0 ≤ st.size - st.offset := by have := hinv.2; omega
  have h := to_size_t_le _ hx
  unfold ov_read_max_bytes
  simp only
  split
  · exact h
  · rename_i hle
    have : ((size * nmemb) % 2 ^ 64 : Nat) ≤ to_size_t (st.size - st.offset) := Nat.le_of_not_lt hle
    omega

theorem ov_read_items_le (size nmemb : Nat) (st : ogg_vorbis_streamfile)
    (hinv : cursor_ok st) (hsrc : st.streamfile.bounded) :
    (((ov_read_func size nmemb st).items_read * size : Nat) : Int) ≤ st.size - st.offset := by
  have h1 := ov_read_max_bytes_le size nmemb st hinv
  have h2 := hsrc (st.start + st.offset) (ov_read_max_bytes size nmemb st)
  have h3 := Nat.div_mul_le_self
    (st.streamfile.read (st.start + st.offset) (ov_read_max_bytes size nmemb st)).length size
  simp only [ov_read_func]
  omega

theorem ov_step_frame (st : ogg_vorbis_streamfile) (c : ov_call) :
    ov_step st c = { st with offset := (ov_step st c).offset } := by
  cases c with
  | read size nmemb => rfl
  | seek offset whence =>
    simp only [ov_step, ov_seek_func]
    split
    · rfl
    · split <;> rfl
  | tell => rfl
  | close => rfl

theorem ov_step_cursor_ok (st : ogg_vorbis_streamfile) (c : ov_call)
    (hinv : cursor_ok st) (hsrc : st.streamfile.bounded) : cursor_ok (ov_step st c) := by
  cases c with
  | read size nmemb =>
    have h := ov_read_items_le size nmemb st hinv hsrc
    have h0 := hinv.1
    simp only [ov_step, cursor_ok, ov_read_func] at h ⊢
    constructor
    · positivity
    · push_cast at h ⊢; omega
  | seek offset whence =>
    simp only [ov_step, ov_seek_func]
    split
    · exact hinv
    · split
      · exact hinv
      · rename_i hn
        simp only [cursor_ok]
        omega
  | tell => exact hinv
  | close => exact hinv

/-! ## Loops over a buffer -/

theorem to_int32_of_range (x : Int) (h1 : -2 ^ 31 ≤ x) (h2 : x < 2 ^ 31) : to_int32 x = x := by
  unfold to_int32; omega

theorem to_int64_of_range (x : Int) (h1 : -2 ^ 63 ≤ x) (h2 : x < 2 ^ 63) : to_int64 x = x := by
  unfold to_int64; omega

theorem to_int32_to_int64 (x : Int) : to_int32 (to_int64 x) = to_int32 x := by
  unfold to_int32 to_int64; omega

theorem to_int64_neg (x : Int) (h1 : 2 ^ 63 ≤ x) (h2 : x < 2 ^ 64) : to_int64 x < 0 := by
  unfold to_int64; omega

theorem builder_streamfile_size (streamfile : STREAMFILE) (start : Int) (stream_size : Nat)
    (vgm_inf : vgm_vorbis_info_t) (hfit : stream_size < 2 ^ 63) :
    (builder_streamfile streamfile start stream_size vgm_inf).size = stream_size := by
  show to_int64 (stream_size : Int) = stream_size
  exact to_int64_of_range _ (by omega) (by omega)

theorem for_loop_poke_getElem? (off : Int) (g : Int → Nat → Nat) :
    ∀ (count : Nat) (first : Int) (ptr : List Nat) (j : Nat), 0 ≤ first - off →
      (for_loop (fun i ptr => poke ptr (i - off) (g i)) count first ptr)[j]? =
        (ptr[j]?).map (fun b =>
          if first - off ≤ (j : Int) ∧ (j : Int) < first - off + count then g (off + j) b % 256
          else b) := by
  intro count
  induction count with
  | zero =>
    intro first ptr j h
    have hc : ¬ (first - off ≤ (j : Int) ∧ (j : Int) < first - off + ((0 : Nat) : Int)) := by omega
    simp only [for_loop, hc, if_false]
    cases ptr[j]? <;> rfl
  | succ count ih =>
    intro first ptr j h
    simp only [for_loop]
    rw [ih (first + 1) _ j (by omega)]
    simp only [poke, if_pos h, List.getElem?_modify]
    cases hj : ptr[j]? with
    | none => rfl
    | some b =>
      simp only [Option.map_some', Option.map_eq_map]
      by_cases h1 : (first - off).toNat = j
      · have e1 : first = off + (j : Int) := by omega
        have c1 : ¬ (first + 1 - off ≤ (j : Int) ∧ (j : Int) < first + 1 - off + (count : Int)) := by
          omega
        have c2 : first - off ≤ (j : Int) ∧ (j : Int) < first - off + ((count + 1 : Nat) : Int) := by
          omega
        rw [if_neg c1, if_pos h1, if_pos c2, ← e1]
      · by_cases c2 : first - off ≤ (j : Int) ∧ (j : Int) < first - off + ((count + 1 : Nat) : Int)
        · have c1 : first + 1 - off ≤ (j : Int) ∧ (j : Int) < first + 1 - off + (count : Int) := by
            omega
          rw [if_pos c1, if_neg h1, if_pos c2]
        · have c1 : ¬ (first + 1 - off ≤ (j : Int) ∧ (j : Int) < first + 1 - off + (count : Int)) := by
            omega
          rw [if_neg c1, if_neg h1, if_neg c2]

theorem for_loop_length (body : Int → List Nat → List Nat)
    (hbody : ∀ i ptr, (body i ptr).length = ptr.length) :
    ∀ (count : Nat) (first : Int) (ptr : List Nat),
      (for_loop body count first ptr).length = ptr.length := by
  intro count
  induction count with
  | zero => intro first ptr; rfl
  | succ count ih => intro first ptr; simp only [for_loop]; rw [ih, hbody]

theorem poke_length (ptr : List Nat) (index : Int) (f : Nat → Nat) :
    (poke ptr index f).length = ptr.length := by
  unfold poke; split <;> simp

theorem kovs_getElem? (ptr : List Nat) (size nmemb : Nat) (st : ov_datasource) (j : Nat)
    (h0 : 0 ≤ st.offset) (hr : st.offset + ((size * nmemb : Nat) : Int) < 2 ^ 31) :
    (kovs_ogg_decryption_callback ptr size nmemb st)[j]? =
      (ptr[j]?).map (fun b =>
        if st.offset + (j : Int) < 0x100 ∧ j < size * nmemb then
          (b ^^^ (st.offset + (j : Int)).toNat) % 256
        else b) := by
  have hb : (size * nmemb) % 2 ^ 64 = size * nmemb := by
    apply Nat.mod_eq_of_lt; omega
  unfold kovs_ogg_decryption_callback
  simp only [hb]
  by_cases hlt : st.offset < 0x100
  · rw [if_pos hlt]
    rw [to_int32_of_range (st.offset + ((size * nmemb : Nat) : Int)) (by omega) hr,
      to_int32_of_range st.offset (by omega) (by omega)]
    rw [for_loop_poke_getElem? st.offset (fun i b => xor_uint8 b i) _ st.offset ptr j (by omega)]
    congr 1
    funext b
    by_cases hc : st.offset + (j : Int) < 0x100 ∧ j < size * nmemb
    · rw [if_pos hc, if_pos]
      · have e : to_uint8 (st.offset + (j : Int)) = (st.offset + (j : Int)).toNat := by
          unfold to_uint8; omega
        simp only [xor_uint8, e]
      · split <;> omega
    · rw [if_neg hc, if_neg]
      split <;> omega
  · rw [if_neg hlt]
    have hc : ¬ (st.offset + (j : Int) < 0x100 ∧ j < size * nmemb) := by omega
    simp only [hc, if_false]
    cases ptr[j]? <;> rfl

/-! ## Decimal numerals -/

theorem digit_char (n : Nat) (h : n < 10) :
    isdigit (Char.ofNat (48 + n)) = true ∧ (Char.ofNat (48 + n)).toNat - 48 = n := by
  interval_cases n <;> decide

theorem isdigit_ne (c : Char) (h : isdigit c = true) :
    c ≠ '-' ∧ c ≠ '+' ∧ c ≠ '=' ∧ c ≠ ',' ∧ c ≠ '(' ∧ isspace c = false := by
  refine ⟨?_, ?_, ?_, ?_, ?_, ?_⟩
  · rintro rfl; revert h; decide
  · rintro rfl; revert h; decide
  · rintro rfl; revert h; decide
  · rintro rfl; revert h; decide
  · rintro rfl; revert h; decide
  · cases hs : isspace c with
    | false => rfl
    | true =>
      simp only [isspace, Bool.or_eq_true, decide_eq_true_eq] at hs
      rcases hs with ((((rfl | rfl) | rfl) | rfl) | rfl) | rfl <;> revert h <;> decide

theorem decimal_digits_isdigit : ∀ (fuel n : Nat), ∀ c ∈ decimal_digits fuel n, isdigit c = true := by
  intro fuel
  induction fuel with
  | zero => intro n c hc; simp [decimal_digits] at hc
  | succ fuel ih =>
    intro n c hc
    simp only [decimal_digits] at hc
    split at hc
    · rename_i h
      simp only [List.mem_singleton] at hc
      rw [hc]; exact (digit_char n h).1
    · rcases List.mem_append.mp hc with h1 | h1
      · exact ih _ c h1
      · simp only [List.mem_singleton] at h1
        rw [h1]; exact (digit_char (n % 10) (Nat.mod_lt n (by norm_num))).1

theorem decimal_digits_ne_nil : ∀ (fuel n : Nat), n < fuel → decimal_digits fuel n ≠ [] := by
  intro fuel n h
  cases fuel with
  | zero => omega
  | succ fuel =>
    simp only [decimal_digits]
    split <;> simp

theorem scan_digits_decimal : ∀ (fuel n : Nat), n < fuel → ∀ (acc : Nat) (rest : List Char),
    scan_digits acc (decimal_digits fuel n ++ rest) =
      scan_digits (acc * 10 ^ (decimal_digits fuel n).length + n) rest := by
  intro fuel
  induction fuel with
  | zero => intro n h; omega
  | succ fuel ih =>
    intro n h acc rest
    simp only [decimal_digits]
    split
    · rename_i h10
      have hd := digit_char n h10
      simp only [List.singleton_append, scan_digits, hd.1, if_true, hd.2, List.length_singleton,
        pow_one]
      rfl
    · rename_i h10
      have hd := digit_char (n % 10) (Nat.mod_lt n (by norm_num))
      have hlt : n / 10 < fuel := by omega
      rw [List.append_assoc, ih (n / 10) hlt]
      simp only [List.singleton_append, scan_digits, hd.1, if_true, hd.2, List.length_append,
        List.length_singleton]
      congr 1
      have := Nat.div_add_mod n 10
      rw [pow_succ]
      nlinarith [this]

theorem scan_digits_stop (acc : Nat) (rest : List Char)
    (hrest : ∀ c ∈ rest.head?, isdigit c = false) : scan_digits acc rest = (acc, rest) := by
  cases rest with
  | nil => rfl
  | cons c cs =>
    have : isdigit c = false := hrest c (by simp)
    simp [scan_digits, this]

theorem scan_unsigned_decimal (n : Nat) (rest : List Char)
    (hrest : ∀ c ∈ rest.head?, isdigit c = false) :
    scan_unsigned (decimal_digits (n + 1) n ++ rest) = some (n, rest) := by
  have hne := decimal_digits_ne_nil (n + 1) n (by omega)
  have hdig := decimal_digits_isdigit (n + 1) n
  have hscan := scan_digits_decimal (n + 1) n (by omega) 0 rest
  cases hd : decimal_digits (n + 1) n with
  | nil => exact absurd hd hne
  | cons c cs =>
    rw [hd] at hscan hdig
    have hc : isdigit c = true := hdig c (by simp)
    simp only [List.cons_append, scan_unsigned, hc, if_true]
    rw [List.cons_append] at hscan
    rw [hscan, scan_digits_stop _ _ hrest]
    simp

theorem scan_int_decimal (z : Int) (rest : List Char)
    (hrest : ∀ c ∈ rest.head?, isdigit c = false) :
    scan_int (decimal z ++ rest) = some (z, rest) := by
  have hne := decimal_digits_ne_nil (z.natAbs + 1) z.natAbs (by omega)
  have hdig := decimal_digits_isdigit (z.natAbs + 1) z.natAbs
  have hu := scan_unsigned_decimal z.natAbs rest hrest
  unfold decimal
  by_cases hz : z < 0
  · rw [if_pos hz]
    have hs : isspace '-' = false := by decide
    simp only [scan_int, List.cons_append, List.dropWhile_cons, hs]
    simp only [Bool.false_eq_true, if_false, if_true, hu, Option.map_some']
    congr 2
    omega
  · rw [if_neg hz]
    cases hd : decimal_digits (z.natAbs + 1) z.natAbs with
    | nil => exact absurd hd hne
    | cons c cs =>
      rw [hd] at hu hdig
      have hc : isdigit c = true := hdig c (by simp)
      have hn := isdigit_ne c hc
      simp only [scan_int, List.cons_append, List.dropWhile_cons, hn.2.2.2.2.2]
      simp only [Bool.false_eq_true, if_false, hn.1, hn.2.1]
      rw [List.cons_append] at hu
      rw [hu]
      simp only [Option.map_some']
      congr 2
      omega

theorem clamp_long_of_range (z : Int) (h1 : -2 ^ 63 ≤ z) (h2 : z < 2 ^ 63) :
    clamp_long z = z := by
  unfold clamp_long LONG_MAX LONG_MIN
  split
  · omega
  · split <;> omega

theorem atol_decimal_clamp (z : Int) : atol (decimal z) = clamp_long z := by
  have h := scan_int_decimal z [] (by simp)
  rw [List.append_nil] at h
  simp [atol, h]

theorem atol_decimal (z : Int) (h1 : -2 ^ 63 ≤ z) (h2 : z < 2 ^ 63) :
    atol (decimal z) = z := by
  rw [atol_decimal_clamp, clamp_long_of_range z h1 h2]

theorem sscanf_decimal (a b : Int) (rest : List Char)
    (hrest : ∀ c ∈ rest.head?, isdigit c = false) :
    sscanf_d_d (decimal a ++ ',' :: (decimal b ++ rest)) = (some a, some b) := by
  have h1 := scan_int_decimal a (',' :: (decimal b ++ rest)) (by simp; decide)
  have h2 := scan_int_decimal b rest hrest
  simp [sscanf_d_d, h1, h2]

/-! ## Comment tags -/

theorem strrchr_none (s : List Char) (c : Char) (h : c ∉ s) : strrchr s c = none := by
  induction s with
  | nil => rfl
  | cons x xs ih =>
    have hx : x ≠ c := fun e => h (by simp [e])
    have hxs : c ∉ xs := fun e => h (by simp [e])
    simp [strrchr, ih hxs, hx]

theorem strrchr_append (a b : List Char) (c : Char) (h : c ∉ b) :
    strrchr (a ++ c :: b) c = some (c :: b) := by
  induction a with
  | nil => simp [strrchr, strrchr_none b c h]
  | cons x xs ih => simp [strrchr, ih]

theorem after_last_tag (key : String) (c : Char) (value : List Char)
    (hkey : key.toList = key.toList.dropLast ++ [c]) (h : c ∉ value) :
    after_last (tag key value) c = value := by
  unfold after_last tag
  rw [hkey, List.append_assoc, List.singleton_append, strrchr_append _ _ _ h]
  rfl

theorem not_mem_decimal (z : Int) (c : Char) (hd : isdigit c = false) (hm : c ≠ '-') :
    c ∉ decimal z := by
  have hdig := decimal_digits_isdigit (z.natAbs + 1) z.natAbs
  intro hc
  unfold decimal at hc
  split at hc
  · rcases List.mem_cons.mp hc with h1 | h1
    · exact hm h1
    · rw [hdig c h1] at hd; exact Bool.noConfusion hd
  · rw [hdig c hc] at hd; exact Bool.noConfusion hd

theorem loop_start_keys_last :
    ∀ key ∈ loop_start_keys, key.toList = key.toList.dropLast ++ ['='] := by
  decide

theorem scan_comment_start (v : loop_vars) (key : String) (hk : key ∈ loop_start_keys)
    (value : List Char) :
    scan_comment v (tag key value) =
      { v with
        loop_start := to_int32 (atol (after_last (tag key value) '='))
        loop_flag := decide (to_int32 (atol (after_last (tag key value) '=')) ≥ 0) } := by
  simp only [loop_start_keys, List.mem_cons, List.mem_singleton, List.not_mem_nil, or_false] at hk
  rcases hk with rfl | rfl | rfl | rfl | rfl | rfl | rfl <;>
    simp [scan_comment, starts_with, tag, String.toList]

theorem scan_comment_start_decimal (v : loop_vars) (key : String) (hk : key ∈ loop_start_keys)
    (b : Int) (h0 : 0 ≤ b) (h1 : b < 2 ^ 31) :
    scan_comment v (tag key (decimal b)) = { v with loop_start := b, loop_flag := true } := by
  rw [scan_comment_start v key hk]
  rw [after_last_tag key '=' (decimal b) (loop_start_keys_last key hk)
    (not_mem_decimal b '=' (by decide) (by decide))]
  rw [atol_decimal b (by omega) (by omega), to_int32_of_range b (by omega) h1]
  simp [h0]

theorem scan_comment_keeps_start (v : loop_vars) (user_comment : List Char)
    (h : sets_loop_start user_comment = false) :
    (scan_comment v user_comment).loop_start = v.loop_start := by
  simp only [sets_loop_start, Bool.or_eq_false_iff] at h
  obtain ⟨⟨⟨⟨⟨⟨⟨⟨⟨⟨h1, h2⟩, h3⟩, h4⟩, h5⟩, h6⟩, h7⟩, h8⟩, h9⟩, h10⟩, h11⟩ := h
  simp only [scan_comment, h1, h2, h3, h4, h5, h6, h7, h8, h9, h10, h11, Bool.or_self,
    Bool.false_eq_true, if_false]
  split_ifs <;> rfl


theorem loop_end_keys_last :
    ∀ key ∈ loop_end_keys, key.toList = key.toList.dropLast ++ ['='] := by
  decide

theorem loop_pair_keys_last :
    ∀ kc ∈ loop_pair_keys, kc.1.toList = kc.1.toList.dropLast ++ [kc.2] := by
  decide

theorem scan_comment_end (v : loop_vars) (key : String) (hk : key ∈ loop_end_keys)
    (value : List Char) :
    scan_comment v (tag key value) =
      if v.loop_flag then
        { v with
          loop_length := to_int32 (atol (after_last (tag key value) '=') - v.loop_start)
          loop_length_found := true }
      else v := by
  simp only [loop_end_keys, List.mem_cons, List.mem_singleton, List.not_mem_nil, or_false] at hk
  rcases hk with rfl | rfl <;>
    simp [scan_comment, starts_with, tag, String.toList]

theorem scan_comment_pair (v : loop_vars) (kc : String × Char) (hk : kc ∈ loop_pair_keys)
    (value : List Char) :
    scan_comment v (tag kc.1 value) =
      { store_start_end v (sscanf_d_d (after_last (tag kc.1 value) kc.2)) with
        loop_flag := true
        loop_end_found := true } := by
  simp only [loop_pair_keys, List.mem_cons, List.mem_singleton, List.not_mem_nil, or_false] at hk
  rcases hk with rfl | rfl | rfl <;>
    simp [scan_comment, starts_with, tag, String.toList]

theorem scan_comment_pair_decimal (v : loop_vars) (kc : String × Char) (hk : kc ∈ loop_pair_keys)
    (a b : Int) (ha : -2 ^ 31 ≤ a ∧ a < 2 ^ 31) (hb : -2 ^ 31 ≤ b ∧ b < 2 ^ 31) :
    scan_comment v (tag kc.1 (decimal a ++ ',' :: decimal b)) =
      { v with loop_flag := true, loop_start := a, loop_end := b, loop_end_found := true } := by
  have hc : isdigit kc.2 = false ∧ kc.2 ≠ '-' ∧ kc.2 ≠ ',' := by
    simp only [loop_pair_keys, List.mem_cons, List.mem_singleton, List.not_mem_nil, or_false] at hk
    rcases hk with rfl | rfl | rfl <;> decide
  have hnot : kc.2 ∉ decimal a ++ ',' :: decimal b := by
    intro hm
    rcases List.mem_append.mp hm with h1 | h1
    · exact not_mem_decimal a kc.2 hc.1 hc.2.1 h1
    · rcases List.mem_cons.mp h1 with h2 | h2
      · exact hc.2.2 h2
      · exact not_mem_decimal b kc.2 hc.1 hc.2.1 h2
  rw [scan_comment_pair v kc hk,
    after_last_tag kc.1 kc.2 _ (loop_pair_keys_last kc hk) hnot]
  have hs := sscanf_decimal a b [] (by simp)
  rw [List.append_nil] at hs
  rw [hs]
  simp only [store_start_end, to_int32_of_range a ha.1 ha.2, to_int32_of_range b hb.1 hb.2]

theorem to_int32_range (x : Int) : -2 ^ 31 ≤ to_int32 x ∧ to_int32 x < 2 ^ 31 := by
  unfold to_int32; omega

/-! ## The builder -/

theorem builder_result (env : environment) (streamFile : STREAMFILE) (filename : List Char)
    (callbacks_p : Option ov_callbacks) (start : Int) (vgm_inf : vgm_vorbis_info_t)
    (streamfile : STREAMFILE) (ovf : OggVorbis_File) (vgmstream : VGMSTREAM)
    (h : builder_succeeds env streamFile filename callbacks_p start vgm_inf streamfile ovf
      vgmstream) :
    init_vgmstream_ogg_vorbis_callbacks env streamFile filename callbacks_p start vgm_inf =
      some (fill_vgmstream vgmstream
        { ogg_vorbis_file := ovf, bitstream := 0,
          ov_streamfile := builder_streamfile streamfile start
            (builder_stream_size streamFile start vgm_inf) vgm_inf }
        (builder_stream_size streamFile start vgm_inf) vgm_inf
        (scan_comments (loop_vars_init vgm_inf) ovf.user_comments)) := by
  obtain ⟨h1, h2, h3, h4, h5⟩ := h
  cases callbacks_p <;>
    simp only [Option.getD] at h1 h4 <;>
    simp [init_vgmstream_ogg_vorbis_callbacks, h1, h2, h3, h4, h5]

theorem set_loop_points_eq (vgmstream : VGMSTREAM) (v : loop_vars) :
    set_loop_points vgmstream v =
      { vgmstream with
        loop_start_sample := v.loop_start
        loop_flag := v.loop_flag
        loop_end_sample :=
          min vgmstream.num_samples (loop_end_candidate v vgmstream.num_samples) } := by
  have key : ∀ c : Int,
      clamp_loop_end { vgmstream with
          loop_start_sample := v.loop_start, loop_end_sample := c, loop_flag := v.loop_flag } =
        { vgmstream with
          loop_start_sample := v.loop_start, loop_flag := v.loop_flag,
          loop_end_sample := min vgmstream.num_samples c } := by
    intro c
    unfold clamp_loop_end
    dsimp only
    split
    · rename_i h
      rw [min_eq_left (le_of_lt h)]
    · rename_i h
      rw [min_eq_right (not_lt.mp h)]
  unfold set_loop_points loop_end_candidate
  dsimp only
  split
  · exact key _
  · split
    · exact key _
    · exact key _

theorem fill_vgmstream_loop (vgmstream : VGMSTREAM) (data : ogg_vorbis_codec_data)
    (stream_size : Nat) (vgm_inf : vgm_vorbis_info_t) (v : loop_vars) :
    (fill_vgmstream vgmstream data stream_size vgm_inf v).num_samples
      = to_int32 data.ogg_vorbis_file.pcm_total ∧
    (v.loop_flag = true →
      (fill_vgmstream vgmstream data stream_size vgm_inf v).loop_flag = true ∧
      (fill_vgmstream vgmstream data stream_size vgm_inf v).loop_start_sample = v.loop_start ∧
      (fill_vgmstream vgmstream data stream_size vgm_inf v).loop_end_sample =
        min (to_int32 data.ogg_vorbis_file.pcm_total)
          (loop_end_candidate v (to_int32 data.ogg_vorbis_file.pcm_total))) ∧
    (v.loop_flag = false →
      (fill_vgmstream vgmstream data stream_size vgm_inf v).loop_flag = vgmstream.loop_flag ∧
      (fill_vgmstream vgmstream data stream_size vgm_inf v).loop_start_sample
        = vgmstream.loop_start_sample ∧
      (fill_vgmstream vgmstream data stream_size vgm_inf v).loop_end_sample
        = vgmstream.loop_end_sample) := by
  cases hf : v.loop_flag with
  | false =>
    simp [fill_vgmstream, hf]
  | true =>
    simp [fill_vgmstream, hf, set_loop_points_eq]

/-- C1: seek contract of `ov_seek_func` / `ov_tell_func`.  For every state, every
displacement `d` and every `whence` among `SEEK_SET`, `SEEK_CUR`, `SEEK_END`
with base `b` = 0 / current offset / size: if `0 ≤ b + d ≤ size` the seek
returns 0, changes only `offset`, and a following tell returns `b + d`;
otherwise it returns -1 and leaves the state as it is.  Any other `whence`
returns -1 and leaves the state as it is.  In particular an absolute seek to
`o` with `0 ≤ o ≤ size` followed by tell returns `o`, and seek never modifies
a field other than `offset`. -/
theorem ov_seek_tell_contract (st : ogg_vorbis_streamfile) (d whence b : Int) :
    ((whence = SEEK_SET ∧ b = 0 ∨ whence = SEEK_CUR ∧ b = st.offset ∨
        whence = SEEK_END ∧ b = st.size) →
      ((0 ≤ b + d ∧ b + d ≤ st.size) →
        ov_seek_func st d whence = (0, { st with offset := b + d }) ∧
        ov_tell_func (ov_seek_func st d whence).2 = b + d) ∧
      (¬ (0 ≤ b + d ∧ b + d ≤ st.size) → ov_seek_func st d whence = (-1, st))) ∧
    ((whence ≠ SEEK_SET ∧ whence ≠ SEEK_CUR ∧ whence ≠ SEEK_END) →
      ov_seek_func st d whence = (-1, st)) ∧
    (∀ o : Int, 0 ≤ o → o ≤ st.size →
      (ov_seek_func st o SEEK_SET).1 = 0 ∧ ov_tell_func (ov_seek_func st o SEEK_SET).2 = o) ∧
    (ov_seek_func st d whence).2 = { st with offset := (ov_seek_func st d whence).2.offset } := by
  refine ⟨?_, ?_, ?_, ?_⟩
  · intro hw
    have hbase : (if whence = SEEK_SET then some (0 : Int)
        else if whence = SEEK_CUR then some st.offset
        else if whence = SEEK_END then some st.size else none) = some b := by
      rcases hw with ⟨h1, h2⟩ | ⟨h1, h2⟩ | ⟨h1, h2⟩ <;> subst h1 <;> subst h2 <;>
        simp [SEEK_SET, SEEK_CUR, SEEK_END]
    constructor
    · intro hin
      have hc : ¬ (b + d < 0 ∨ b + d > st.size) := by omega
      simp [ov_seek_func, ov_tell_func, hbase, hc]
    · intro hout
      have hc : b + d < 0 ∨ b + d > st.size := by omega
      simp only [ov_seek_func, hbase, hc, if_true]
  · rintro ⟨h1, h2, h3⟩
    simp only [ov_seek_func, h1, h2, h3, if_false]
  · intro o h0 h1
    have hc : ¬ (o < 0 ∨ st.size < o) := by omega
    simp [ov_seek_func, ov_tell_func, hc]
  · exact ov_step_frame st (.seek d whence)

/-- Witness of C1 on the 3-byte session: seeking 2 bytes back from the end. -/
theorem ov_seek_tell_contract_witness :
    ov_seek_func sample_state3 (-2) SEEK_END = (0, { sample_state3 with offset := 3 + -2 }) ∧
    ov_tell_func (ov_seek_func sample_state3 (-2) SEEK_END).2 = 3 + -2 :=
  ((ov_seek_tell_contract sample_state3 (-2) SEEK_END 3).1
    (Or.inr (Or.inr ⟨rfl, rfl⟩))).1 ⟨by decide, by decide⟩

/-- C2: read clamp of `ov_read_func`.  In every state with `0 ≤ offset ≤ size`,
for every item size `s ≥ 1`, every count `n` and every byte source that
returns at most what it is asked for: the length asked of the byte source is
at most `size - offset`, the read is made at `start + offset` with that
length, the items returned cover at most `size - offset` bytes, and at
`offset = size` the call returns 0 items and leaves the offset unchanged. -/
theorem ov_read_clamp (st : ogg_vorbis_streamfile) (s n : Nat)
    (hinv : cursor_ok st) (hs : 1 ≤ s) (hsrc : st.streamfile.bounded) :
    (ov_read_max_bytes s n st : Int) ≤ st.size - st.offset ∧
    (ov_read_func s n st).items_read =
      (st.streamfile.read (st.start + st.offset) (ov_read_max_bytes s n st)).length / s ∧
    (((ov_read_func s n st).items_read * s : Nat) : Int) ≤ st.size - st.offset ∧
    (st.offset = st.size →
      (ov_read_func s n st).items_read = 0 ∧
      (ov_read_func s n st).datasource.offset = st.offset) := by
  refine ⟨ov_read_max_bytes_le s n st hinv, rfl, ov_read_items_le s n st hinv hsrc, ?_⟩
  intro heq
  have h := ov_read_items_le s n st hinv hsrc
  have hz : (ov_read_func s n st).items_read * s = 0 := by omega
  have hi : (ov_read_func s n st).items_read = 0 := by
    rcases Nat.mul_eq_zero.mp hz with h0 | h0
    · exact h0
    · omega
  refine ⟨hi, ?_⟩
  have : (ov_read_func s n st).datasource.offset
      = st.offset + (((ov_read_func s n st).items_read * s : Nat) : Int) := by
    simp [ov_read_func]
  rw [this, hz]; simp

/-- Witness of C2: a request of `5 * 7` bytes on the 3-byte session. -/
theorem ov_read_clamp_witness :
    (ov_read_max_bytes 5 7 sample_state3 : Int) ≤ sample_state3.size - sample_state3.offset ∧
    (ov_read_func 5 7 sample_state3).items_read =
      (sample_state3.streamfile.read (sample_state3.start + sample_state3.offset)
        (ov_read_max_bytes 5 7 sample_state3)).length / 5 ∧
    (((ov_read_func 5 7 sample_state3).items_read * 5 : Nat) : Int)
      ≤ sample_state3.size - sample_state3.offset ∧
    (sample_state3.offset = sample_state3.size →
      (ov_read_func 5 7 sample_state3).items_read = 0 ∧
      (ov_read_func 5 7 sample_state3).datasource.offset = sample_state3.offset) :=
  ov_read_clamp sample_state3 5 7 ⟨by decide, by decide⟩ (by decide)
    (ofBytes_bounded [] [] [0x10, 0x20, 0x30])

/-- C3 (as stated, refuted): the 16-byte `.kvs` file that starts with `KOVS` is
accepted by the detector with data start 0x20; the builder computes the stream
size `16 - 0x20` as a `size_t`, which is `2^64 - 16`, and stores it in the
signed 64-bit field `size` as `-16`.  The initial state has `offset = 0` and
`size = -16`, so `0 ≤ offset ≤ size` fails in it. -/
theorem cursor_invariant_counterexample :
    (init_vgmstream_ogg_vorbis_args sample_short_kovs_file).map builder_args.start
      = some 0x20 ∧
    (init_vgmstream_ogg_vorbis_args sample_short_kovs_file).map
        (fun args => builder_stream_size sample_short_kovs_file args.start args.vgm_inf)
      = some (2 ^ 64 - 16) ∧
    (init_vgmstream_ogg_vorbis_args sample_short_kovs_file).map
        (fun args =>
          ((builder_streamfile sample_short_kovs_file args.start
              (builder_stream_size sample_short_kovs_file args.start args.vgm_inf)
              args.vgm_inf).offset,
           (builder_streamfile sample_short_kovs_file args.start
              (builder_stream_size sample_short_kovs_file args.start args.vgm_inf)
              args.vgm_inf).size))
      = some (0, -16) ∧
    ¬ cursor_ok (builder_streamfile sample_short_kovs_file 0x20
      (builder_stream_size sample_short_kovs_file 0x20 (kovs_inf sample_short_kovs_file))
      (kovs_inf sample_short_kovs_file)) := by
  refine ⟨by decide, by decide, by decide, ?_⟩
  intro h
  have h2 : (0 : Int) ≤ -16 := h.2
  omega

/-- C3 (amended): cursor invariant.  The state the builder sets up (over any
byte source, start and detection result) has `offset = 0`; when the stream
size is below `2^63` it is stored unchanged in the signed 64-bit field `size`
and the state satisfies `0 ≤ offset ≤ size`, whereas for a stream size from
`2^63` up the stored size is negative and the state does not satisfy it.  The
stream size the builder computes is below `2^63` when the seed gives none and
`0 ≤ start ≤ file size < 2^63`.  Every bridge call (`ov_read_func` with any
item size, count and callback, `ov_seek_func` with any whence and
displacement, `ov_tell_func`, `ov_close_func`) on a state that satisfies the
invariant, over a byte source returning at most what is asked, yields a state
that satisfies it and differs at most in `offset`; hence after any sequence of
calls from such an initial state the invariant holds and every field but
`offset` is as the builder set it. -/
theorem cursor_invariant (streamfile : STREAMFILE) (start : Int) (stream_size : Nat)
    (vgm_inf : vgm_vorbis_info_t) (calls : List ov_call)
    (hsrc : streamfile.bounded)
    (_hsize : ∀ size nmemb, ov_call.read size nmemb ∈ calls → 1 ≤ size)
    (hfit : stream_size < 2 ^ 63) :
    (builder_streamfile streamfile start stream_size vgm_inf).offset = 0 ∧
    (builder_streamfile streamfile start stream_size vgm_inf).size = stream_size ∧
    cursor_ok (builder_streamfile streamfile start stream_size vgm_inf) ∧
    (∀ n : Nat, 2 ^ 63 ≤ n → n < 2 ^ 64 →
      (builder_streamfile streamfile start n vgm_inf).size < 0 ∧
      ¬ cursor_ok (builder_streamfile streamfile start n vgm_inf)) ∧
    (∀ streamFile : STREAMFILE, vgm_inf.stream_size = 0 → 0 ≤ start →
      start ≤ streamFile.size → streamFile.size < 2 ^ 63 →
      (builder_stream_size streamFile start vgm_inf : Int) = streamFile.size - start ∧
      builder_stream_size streamFile start vgm_inf < 2 ^ 63) ∧
    (∀ (st : ogg_vorbis_streamfile) (c : ov_call), cursor_ok st → st.streamfile.bounded →
      (∀ size nmemb, c = ov_call.read size nmemb → 1 ≤ size) →
      cursor_ok (ov_step st c) ∧ ov_step st c = { st with offset := (ov_step st c).offset }) ∧
    cursor_ok (ov_run (builder_streamfile streamfile start stream_size vgm_inf) calls) ∧
    ov_run (builder_streamfile streamfile start stream_size vgm_inf) calls =
      { builder_streamfile streamfile start stream_size vgm_inf with
        offset := (ov_run (builder_streamfile streamfile start stream_size vgm_inf) calls).offset }
    := by
  have hrun : ∀ (calls : List ov_call) (st : ogg_vorbis_streamfile),
      cursor_ok st → st.streamfile.bounded →
      cursor_ok (ov_run st calls) ∧ ov_run st calls = { st with offset := (ov_run st calls).offset } := by
    intro calls
    induction calls with
    | nil => intro st h _; exact ⟨h, rfl⟩
    | cons c cs ih =>
      intro st h hb
      have h1 := ov_step_cursor_ok st c h hb
      have h2 := ov_step_frame st c
      have hb1 : (ov_step st c).streamfile.bounded := by rw [h2]; exact hb
      have h3 := ih (ov_step st c) h1 hb1
      have e : ov_run st (c :: cs) = ov_run (ov_step st c) cs := rfl
      rw [e]
      refine ⟨h3.1, ?_⟩
      rw [h3.2, h2]
  have hsz := builder_streamfile_size streamfile start stream_size vgm_inf hfit
  have hinit : cursor_ok (builder_streamfile streamfile start stream_size vgm_inf) := by
    refine ⟨Int.le_refl 0, ?_⟩
    rw [hsz]
    show (0 : Int) ≤ (stream_size : Int)
    omega
  refine ⟨rfl, hsz, hinit, ?_, ?_, ?_, ?_⟩
  · intro n h1 h2
    have hneg : (builder_streamfile streamfile start n vgm_inf).size < 0 :=
      to_int64_neg (n : Int) (by omega) (by omega)
    refine ⟨hneg, ?_⟩
    intro hc
    have h3 : (0 : Int) ≤ (builder_streamfile streamfile start n vgm_inf).size := hc.2
    omega
  · intro streamFile h0 h1 h2 h3
    have e : builder_stream_size streamFile start vgm_inf
        = to_size_t ((streamFile.size : Int) - start) := by
      simp [builder_stream_size, h0]
    rw [e]
    unfold to_size_t
    omega
  · intro st c h hb _
    exact ⟨ov_step_cursor_ok st c h hb, ov_step_frame st c⟩
  · exact hrun calls _ hinit hsrc

/-- Witness of C3 (amended): a session of four calls over the 3-byte file. -/
theorem cursor_invariant_witness :
    cursor_ok (ov_run (builder_streamfile sample_file3 0 3 inf_zero)
      [.read 2 2, .seek 5 SEEK_CUR, .tell, .read 1 7, .close]) :=
  (cursor_invariant sample_file3 0 3 inf_zero
    [.read 2 2, .seek 5 SEEK_CUR, .tell, .read 1 7, .close]
    (ofBytes_bounded [] [] [0x10, 0x20, 0x30])
    (by intro size nmemb h; simp at h; omega) (by decide)).2.2.2.2.2.2.1

/-- C4: read presents the transformed window.  In a state with virtual offset
`v` (`0 ≤ v ≤ size`), a read of `n` items of size 1 asks the byte source for
`m = min(n, size - v)` bytes at absolute position `start + v`; the buffer
handed back is the callback applied to the bytes delivered, with the state
(whose `offset` is the virtual offset `v`) as its data source, and is the
bytes delivered themselves when no callback is set.  In the KOVS setup
(start 0x20, `kovs_ogg_decryption_callback`) over a file of bytes, for reads
within `int` range, the byte returned for virtual offset `v + j` is
`file[0x20 + v + j] xor (v + j)` when `v + j < 0x100` and `file[0x20 + v + j]`
otherwise. -/
theorem ov_read_window (st : ogg_vorbis_streamfile) (n : Nat)
    (hinv : cursor_ok st) (hn : n < 2 ^ 64) (hsz : st.size < 2 ^ 63) :
    ov_read_max_bytes 1 n st = min n (st.size - st.offset).toNat ∧
    (ov_read_func 1 n st).items_read =
      (st.streamfile.read (st.start + st.offset) (min n (st.size - st.offset).toNat)).length ∧
    (∀ callback, st.decryption_callback = some callback →
      (ov_read_func 1 n st).ptr =
        callback (st.streamfile.read (st.start + st.offset) (min n (st.size - st.offset).toNat)) 1
          (st.streamfile.read (st.start + st.offset) (min n (st.size - st.offset).toNat)).length
          st.toov_datasource) ∧
    (st.decryption_callback = none →
      (ov_read_func 1 n st).ptr =
        st.streamfile.read (st.start + st.offset) (min n (st.size - st.offset).toNat)) ∧
    (∀ (name extension : List Char) (file : List Nat),
      st.streamfile = STREAMFILE.ofBytes name extension file → st.start = 0x20 →
      st.decryption_callback = some kovs_ogg_decryption_callback →
      (∀ b ∈ file, b < 256) → st.offset + (n : Int) < 2 ^ 31 →
      ∀ j : Nat, (ov_read_func 1 n st).ptr[j]? =
        if j < min n (st.size - st.offset).toNat then
          (file[0x20 + st.offset.toNat + j]?).map (fun b =>
            if st.offset.toNat + j < 0x100 then b ^^^ (st.offset.toNat + j) else b)
        else none) := by
  have h0 := hinv.1
  have h1 := hinv.2
  have hm : ov_read_max_bytes 1 n st = min n (st.size - st.offset).toNat := by
    have e1 : to_size_t (st.size - st.offset) = (st.size - st.offset).toNat := by
      unfold to_size_t; omega
    have e2 : (1 * n) % 2 ^ 64 = n := by rw [Nat.one_mul]; exact Nat.mod_eq_of_lt hn
    unfold ov_read_max_bytes
    simp only [e1, e2]
    split <;> omega
  refine ⟨hm, ?_, ?_, ?_, ?_⟩
  · simp [ov_read_func, hm]
  · intro callback hcb
    simp [ov_read_func, hm, hcb]
  · intro hcb
    simp [ov_read_func, hm, hcb]
  · intro name extension file hsf hstart hcb hbytes hr j
    have hnn : ¬ ((32 : Int) + st.offset < 0) := by omega
    have hraw : st.streamfile.read (st.start + st.offset) (min n (st.size - st.offset).toNat)
        = (file.drop (0x20 + st.offset.toNat)).take (min n (st.size - st.offset).toNat) := by
      rw [hsf, hstart]
      simp only [STREAMFILE.ofBytes]
      rw [if_neg hnn]
      congr 2
      omega
    have hlen := (List.length_take_le (min n (st.size - st.offset).toNat)
      (file.drop (0x20 + st.offset.toNat)))
    have hptr : (ov_read_func 1 n st).ptr =
        kovs_ogg_decryption_callback
          ((file.drop (0x20 + st.offset.toNat)).take (min n (st.size - st.offset).toNat)) 1
          ((file.drop (0x20 + st.offset.toNat)).take (min n (st.size - st.offset).toNat)).length
          st.toov_datasource := by
      simp [ov_read_func, hm, hcb, hraw]
    rw [hptr, kovs_getElem? _ 1 _ st.toov_datasource j h0 (by omega)]
    rw [List.getElem?_take, List.getElem?_drop]
    by_cases hj : j < min n (st.size - st.offset).toNat
    · rw [if_pos hj, if_pos hj]
      cases hf : file[0x20 + st.offset.toNat + j]? with
      | none => rfl
      | some b =>
        have hb : b < 256 := hbytes b (List.getElem?_mem hf)
        have hjl : j < ((file.drop (0x20 + st.offset.toNat)).take
            (min n (st.size - st.offset).toNat)).length := by
          have : ((file.drop (0x20 + st.offset.toNat)).take
              (min n (st.size - st.offset).toNat))[j]? = some b := by
            rw [List.getElem?_take, List.getElem?_drop, if_pos hj, hf]
          exact (List.getElem?_eq_some_iff.mp this).choose
        simp only [Option.map_some']
        by_cases hv : st.offset.toNat + j < 0x100
        · have hc : st.offset + (j : Int) < 0x100 ∧
              j < 1 * ((file.drop (0x20 + st.offset.toNat)).take
                (min n (st.size - st.offset).toNat)).length := by
            constructor <;> omega
          rw [if_pos hc, if_pos hv]
          have e : (st.offset + (j : Int)).toNat = st.offset.toNat + j := by omega
          rw [e]
          have hk : st.offset.toNat + j < 2 ^ 8 := by omega
          have hx : b ^^^ (st.offset.toNat + j) < 2 ^ 8 :=
            Nat.xor_lt_two_pow (by omega) hk
          rw [Nat.mod_eq_of_lt (by omega)]
        · have hc : ¬ (st.offset + (j : Int) < 0x100 ∧
              j < 1 * ((file.drop (0x20 + st.offset.toNat)).take
                (min n (st.size - st.offset).toNat)).length) := by
            omega
          rw [if_neg hc, if_neg hv]
    · rw [if_neg hj, if_neg hj]; rfl

/-- Witness of C4: reading 4 bytes at virtual offset 0 of the sample KOVS
session; the byte at index 1 is `file[0x21] xor 1`. -/
theorem ov_read_window_witness :
    (ov_read_func 1 4 sample_kovs_state).ptr[1]? =
      if 1 < min 4 (sample_kovs_state.size - sample_kovs_state.offset).toNat then
        (sample_kovs_bytes[0x20 + sample_kovs_state.offset.toNat + 1]?).map (fun b =>
          if sample_kovs_state.offset.toNat + 1 < 0x100 then
            b ^^^ (sample_kovs_state.offset.toNat + 1)
          else b)
      else none :=
  (ov_read_window sample_kovs_state 4 ⟨by decide, by decide⟩ (by decide) (by decide)).2.2.2.2
    "song.kvs".toList "kvs".toList sample_kovs_bytes rfl rfl rfl (by decide) (by decide) 1

/-- C5 (as stated, refuted): on the 3-byte session a read of 2 items of size 2
is clamped to 3 bytes, the byte source delivers 3 bytes, 1 item is returned,
and the offset advances by 2, not by the 3 bytes actually read. -/
theorem ov_read_advance_counterexample :
    (sample_state3.streamfile.read (sample_state3.start + sample_state3.offset)
      (ov_read_max_bytes 2 2 sample_state3)).length = 3 ∧
    (ov_read_func 2 2 sample_state3).items_read = 1 ∧
    (ov_read_func 2 2 sample_state3).datasource.offset = sample_state3.offset + 2 ∧
    (ov_read_func 2 2 sample_state3).datasource.offset ≠ sample_state3.offset + 3 := by
  decide

/-- C5 (amended): for every read with item size `s ≥ 1` in which the byte
source delivers `b` bytes, `ov_read_func` returns `b / s` whole items and
advances the offset by `(b / s) * s`, the bytes of the whole items: by exactly
`b` when `s` divides `b`, and otherwise by less than `b`, the fewer than `s`
trailing bytes not being counted. -/
theorem ov_read_advance (st : ogg_vorbis_streamfile) (s n : Nat) (hs : 1 ≤ s) :
    (ov_read_func s n st).items_read =
      (st.streamfile.read (st.start + st.offset) (ov_read_max_bytes s n st)).length / s ∧
    (ov_read_func s n st).datasource.offset = st.offset +
      (((st.streamfile.read (st.start + st.offset) (ov_read_max_bytes s n st)).length / s * s
        : Nat) : Int) ∧
    (s ∣ (st.streamfile.read (st.start + st.offset) (ov_read_max_bytes s n st)).length →
      (ov_read_func s n st).datasource.offset = st.offset +
        ((st.streamfile.read (st.start + st.offset) (ov_read_max_bytes s n st)).length : Int)) ∧
    (¬ s ∣ (st.streamfile.read (st.start + st.offset) (ov_read_max_bytes s n st)).length →
      (ov_read_func s n st).datasource.offset < st.offset +
        ((st.streamfile.read (st.start + st.offset) (ov_read_max_bytes s n st)).length : Int) ∧
      (st.streamfile.read (st.start + st.offset) (ov_read_max_bytes s n st)).length
        - (ov_read_func s n st).items_read * s < s) := by
  have hoff : (ov_read_func s n st).datasource.offset = st.offset +
      (((st.streamfile.read (st.start + st.offset) (ov_read_max_bytes s n st)).length / s * s
        : Nat) : Int) := by
    simp [ov_read_func]
  have hitems : (ov_read_func s n st).items_read =
      (st.streamfile.read (st.start + st.offset) (ov_read_max_bytes s n st)).length / s := rfl
  generalize (st.streamfile.read (st.start + st.offset) (ov_read_max_bytes s n st)).length = b
    at hoff hitems ⊢
  have hle : b / s * s ≤ b := Nat.div_mul_le_self b s
  have hmod : b / s * s + b % s = b := by
    rw [Nat.mul_comm]; exact Nat.div_add_mod b s
  have hlt : b % s < s := Nat.mod_lt b (by omega)
  refine ⟨hitems, hoff, ?_, ?_⟩
  · intro hdvd
    rw [hoff, Nat.div_mul_cancel hdvd]
  · intro hnd
    have hne : b % s ≠ 0 := fun h => hnd (Nat.dvd_of_mod_eq_zero h)
    rw [hoff, hitems]
    constructor <;> omega

/-- Witness of C5 (amended): the read of 2 items of size 2 on the 3-byte session. -/
theorem ov_read_advance_witness :
    (ov_read_func 2 2 sample_state3).items_read =
      (sample_state3.streamfile.read (sample_state3.start + sample_state3.offset)
        (ov_read_max_bytes 2 2 sample_state3)).length / 2 ∧
    (ov_read_func 2 2 sample_state3).datasource.offset = sample_state3.offset +
      (((sample_state3.streamfile.read (sample_state3.start + sample_state3.offset)
        (ov_read_max_bytes 2 2 sample_state3)).length / 2 * 2 : Nat) : Int) :=
  ⟨(ov_read_advance sample_state3 2 2 (by decide)).1,
   (ov_read_advance sample_state3 2 2 (by decide)).2.1⟩

/-! ## Loop comments -/

/-- C6 (as stated, refuted): with the all-zero seed, the comments
`["LOOPSTART=2147483647", "LOOPLENGTH=1"]` and 5000 total samples, the scan
ends with the loop flag set, `loop_start = 2147483647` and a found
`loop_length = 1`; the sum of the two `int32_t` wraps to `-2147483648`, which
the clamp leaves alone, so the descriptor has `loop_end_sample = -2147483648`
and not `min(5000, 2147483647 + 1) = 5000`. -/
theorem loop_end_resolution_counterexample :
    scan_comments (loop_vars_init inf_zero)
        ["LOOPSTART=2147483647".toList, "LOOPLENGTH=1".toList] =
      { loop_flag := true, loop_start := 2147483647, loop_length_found := true,
        loop_length := 1, loop_end_found := false, loop_end := 0 } ∧
    (init_vgmstream_ogg_vorbis_callbacks
        (sample_env ["LOOPSTART=2147483647".toList, "LOOPLENGTH=1".toList] 5000)
        sample_ogg_file sample_ogg_file.name none 0 inf_zero).map
        (fun r => (r.num_samples, r.loop_flag, r.loop_start_sample, r.loop_end_sample))
      = some (5000, true, 2147483647, -2147483648) ∧
    min (5000 : Int) (2147483647 + 1) = 5000 := by
  decide

/-- C6 (amended): loop-end resolution in `init_vgmstream_ogg_vorbis_callbacks`.
For every seed loop info, every list of comments and every total sample count
`T` reported by the decoder, when the collaborators succeed the builder
returns a descriptor with `num_samples = T`; if the loop flag after the scan
is set, the descriptor is looped, `loop_start_sample` is the scanned
`loop_start`, and `loop_end_sample = min(T, c)` with `c` the sum
`loop_start + loop_length` reduced to `int32_t` if a length was found, else
`loop_end` if an end was found, else `T`; when the sum fits `int32_t`, `c` is
`loop_start + loop_length` itself.  In every case `loop_end_sample ≤ T`. -/
theorem loop_end_resolution (env : environment) (streamFile : STREAMFILE)
    (filename : List Char) (callbacks_p : Option ov_callbacks) (start : Int)
    (vgm_inf : vgm_vorbis_info_t) (streamfile : STREAMFILE) (ovf : OggVorbis_File)
    (vgmstream : VGMSTREAM)
    (h : builder_succeeds env streamFile filename callbacks_p start vgm_inf streamfile ovf
      vgmstream) :
    ∃ r : VGMSTREAM,
      init_vgmstream_ogg_vorbis_callbacks env streamFile filename callbacks_p start vgm_inf
        = some r ∧
      r.num_samples = to_int32 ovf.pcm_total ∧
      ((scan_comments (loop_vars_init vgm_inf) ovf.user_comments).loop_flag = true →
        r.loop_flag = true ∧
        r.loop_start_sample = (scan_comments (loop_vars_init vgm_inf) ovf.user_comments).loop_start ∧
        r.loop_end_sample = min r.num_samples
          (if (scan_comments (loop_vars_init vgm_inf) ovf.user_comments).loop_length_found then
            to_int32
              ((scan_comments (loop_vars_init vgm_inf) ovf.user_comments).loop_start +
                (scan_comments (loop_vars_init vgm_inf) ovf.user_comments).loop_length)
          else if (scan_comments (loop_vars_init vgm_inf) ovf.user_comments).loop_end_found then
            (scan_comments (loop_vars_init vgm_inf) ovf.user_comments).loop_end
          else r.num_samples) ∧
        (-2 ^ 31 ≤ (scan_comments (loop_vars_init vgm_inf) ovf.user_comments).loop_start +
            (scan_comments (loop_vars_init vgm_inf) ovf.user_comments).loop_length →
          (scan_comments (loop_vars_init vgm_inf) ovf.user_comments).loop_start +
            (scan_comments (loop_vars_init vgm_inf) ovf.user_comments).loop_length < 2 ^ 31 →
          r.loop_end_sample = min r.num_samples
            (if (scan_comments (loop_vars_init vgm_inf) ovf.user_comments).loop_length_found then
              (scan_comments (loop_vars_init vgm_inf) ovf.user_comments).loop_start +
                (scan_comments (loop_vars_init vgm_inf) ovf.user_comments).loop_length
            else if (scan_comments (loop_vars_init vgm_inf) ovf.user_comments).loop_end_found then
              (scan_comments (loop_vars_init vgm_inf) ovf.user_comments).loop_end
            else r.num_samples)) ∧
        r.loop_end_sample ≤ r.num_samples) := by
  refine ⟨_, builder_result env streamFile filename callbacks_p start vgm_inf streamfile ovf
    vgmstream h, ?_, ?_⟩
  · exact (fill_vgmstream_loop _ _ _ _ _).1
  · intro hf
    have hl := (fill_vgmstream_loop vgmstream
      { ogg_vorbis_file := ovf, bitstream := 0,
        ov_streamfile := builder_streamfile streamfile start
          (builder_stream_size streamFile start vgm_inf) vgm_inf }
      (builder_stream_size streamFile start vgm_inf) vgm_inf
      (scan_comments (loop_vars_init vgm_inf) ovf.user_comments))
    have hn := hl.1
    obtain ⟨h1, h2, h3⟩ := hl.2.1 hf
    have h4 : (fill_vgmstream vgmstream
        { ogg_vorbis_file := ovf, bitstream := 0,
          ov_streamfile := builder_streamfile streamfile start
            (builder_stream_size streamFile start vgm_inf) vgm_inf }
        (builder_stream_size streamFile start vgm_inf) vgm_inf
        (scan_comments (loop_vars_init vgm_inf) ovf.user_comments)).loop_end_sample =
        min (to_int32 ovf.pcm_total)
          (if (scan_comments (loop_vars_init vgm_inf) ovf.user_comments).loop_length_found then
            to_int32
              ((scan_comments (loop_vars_init vgm_inf) ovf.user_comments).loop_start +
                (scan_comments (loop_vars_init vgm_inf) ovf.user_comments).loop_length)
          else if (scan_comments (loop_vars_init vgm_inf) ovf.user_comments).loop_end_found then
            (scan_comments (loop_vars_init vgm_inf) ovf.user_comments).loop_end
          else to_int32 ovf.pcm_total) := by
      rw [h3]; rfl
    refine ⟨h1, h2, ?_, ?_, ?_⟩
    · rw [h4, hn]
    · intro hlo hhi
      rw [h4, hn, to_int32_of_range _ hlo hhi]
    · rw [h3, hn]; exact min_le_left _ _

/-- Witness of C6 (amended): the comment `lp=0,999999` with 5000 total samples gives loop
end 5000. -/
theorem loop_end_resolution_witness :
    ∃ r : VGMSTREAM,
      init_vgmstream_ogg_vorbis_callbacks (sample_env ["lp=0,999999".toList] 5000)
        sample_ogg_file sample_ogg_file.name none 0 inf_zero = some r ∧
      r.num_samples = 5000 ∧ r.loop_flag = true ∧ r.loop_start_sample = 0 ∧
      r.loop_end_sample = 5000 := by
  obtain ⟨r, hr, hn, hl⟩ := loop_end_resolution (sample_env ["lp=0,999999".toList] 5000)
    sample_ogg_file sample_ogg_file.name none 0 inf_zero sample_ogg_file
    { channels := 2, rate := 44100, user_comments := ["lp=0,999999".toList], pcm_total := 5000 }
    { VGMSTREAM_zero with channels := 2, loop_flag := true }
    ⟨rfl, rfl, rfl, rfl, rfl⟩
  obtain ⟨h1, h2, h3, _, _⟩ := hl (by decide)
  refine ⟨r, hr, ?_, h1, ?_, ?_⟩
  · rw [hn]; decide
  · rw [h2]; decide
  · rw [h3, hn]; decide

/-- C7: last match wins among loop-start tags.  For any two loop-start key
prefixes `p`, `q` and any two decimal values `a`, `b` in `[0, 2^31)`, scanning
`[p a, q b]` from any seed gives loop flag true and `loop_start = b` (and the
descriptor filled from it has `loop_start_sample = b`); more generally, when a
loop-start tag `q b` is followed only by comments whose branch does not assign
`loop_start`, the final `loop_start` is `b` whatever precedes it.  In
particular `["LOOPSTART=1000", "LoopStart=2000"]` gives 2000. -/
theorem last_start_wins (v0 : loop_vars) (p q : String) (a b : Int)
    (hp : p ∈ loop_start_keys) (hq : q ∈ loop_start_keys)
    (ha : 0 ≤ a ∧ a < 2 ^ 31) (hb : 0 ≤ b ∧ b < 2 ^ 31) :
    (scan_comments v0 [tag p (decimal a), tag q (decimal b)]).loop_flag = true ∧
    (scan_comments v0 [tag p (decimal a), tag q (decimal b)]).loop_start = b ∧
    (∀ (vgmstream : VGMSTREAM) (data : ogg_vorbis_codec_data) (stream_size : Nat)
        (vgm_inf : vgm_vorbis_info_t),
      (fill_vgmstream vgmstream data stream_size vgm_inf
        (scan_comments v0 [tag p (decimal a), tag q (decimal b)])).loop_flag = true ∧
      (fill_vgmstream vgmstream data stream_size vgm_inf
        (scan_comments v0 [tag p (decimal a), tag q (decimal b)])).loop_start_sample = b) ∧
    (∀ (before after : List (List Char)), (∀ t ∈ after, sets_loop_start t = false) →
      (scan_comments v0 (before ++ tag q (decimal b) :: after)).loop_start = b) ∧
    (scan_comments v0 ["LOOPSTART=1000".toList, "LoopStart=2000".toList]).loop_start = 2000 := by
  have h2 : scan_comments v0 [tag p (decimal a), tag q (decimal b)] =
      { v0 with loop_start := b, loop_flag := true } := by
    simp only [scan_comments, List.foldl_cons, List.foldl_nil]
    rw [scan_comment_start_decimal v0 p hp a ha.1 ha.2,
      scan_comment_start_decimal _ q hq b hb.1 hb.2]
  have hkeep : ∀ (after : List (List Char)) (v : loop_vars),
      (∀ t ∈ after, sets_loop_start t = false) →
      (scan_comments v after).loop_start = v.loop_start := by
    intro after
    induction after with
    | nil => intro v _; rfl
    | cons t ts ih =>
      intro v ht
      have e : scan_comments v (t :: ts) = scan_comments (scan_comment v t) ts := rfl
      rw [e, ih _ (fun t' h' => ht t' (List.mem_cons_of_mem _ h')),
        scan_comment_keeps_start v t (ht t (List.mem_cons_self _ _))]
  refine ⟨?_, ?_, ?_, ?_, ?_⟩
  · rw [h2]
  · rw [h2]
  · intro vgmstream data stream_size vgm_inf
    have hl := (fill_vgmstream_loop vgmstream data stream_size vgm_inf
      (scan_comments v0 [tag p (decimal a), tag q (decimal b)])).2.1 (by rw [h2])
    refine ⟨hl.1, ?_⟩
    rw [hl.2.1, h2]
  · intro before after hafter
    have e : scan_comments v0 (before ++ tag q (decimal b) :: after) =
        scan_comments (scan_comment (scan_comments v0 before) (tag q (decimal b))) after := by
      simp only [scan_comments, List.foldl_append, List.foldl_cons]
    rw [e, hkeep after _ hafter, scan_comment_start_decimal _ q hq b hb.1 hb.2]
  · have e : scan_comments v0 ["LOOPSTART=1000".toList, "LoopStart=2000".toList] =
        { v0 with loop_start := 2000, loop_flag := true } := by
      simp only [scan_comments, List.foldl_cons, List.foldl_nil]
      have e1 : "LOOPSTART=1000".toList = tag "LOOPSTART=" (decimal 1000) := by decide
      have e2 : "LoopStart=2000".toList = tag "LoopStart=" (decimal 2000) := by decide
      rw [e1, e2, scan_comment_start_decimal v0 "LOOPSTART=" (by decide) 1000 (by decide) (by decide),
        scan_comment_start_decimal _ "LoopStart=" (by decide) 2000 (by decide) (by decide)]
    rw [e]

/-- Witness of C7: `["LOOP_BEGIN=7", "loop_start=3"]` from the zero seed. -/
theorem last_start_wins_witness :
    (scan_comments (loop_vars_init inf_zero)
      [tag "LOOP_BEGIN=" (decimal 7), tag "loop_start=" (decimal 3)]).loop_flag = true ∧
    (scan_comments (loop_vars_init inf_zero)
      [tag "LOOP_BEGIN=" (decimal 7), tag "loop_start=" (decimal 3)]).loop_start = 3 :=
  ⟨(last_start_wins (loop_vars_init inf_zero) "LOOP_BEGIN=" "loop_start=" 7 3
      (by decide) (by decide) ⟨by decide, by decide⟩ ⟨by decide, by decide⟩).1,
   (last_start_wins (loop_vars_init inf_zero) "LOOP_BEGIN=" "loop_start=" 7 3
      (by decide) (by decide) ⟨by decide, by decide⟩ ⟨by decide, by decide⟩).2.1⟩

/-- C8: start/end pair.  When the decoder reports the two comments
`["LoopStart=s", "LoopEnd=e"]` (or `["LOOP_BEGIN=s", "LOOP_END=e"]`) with
decimal values `0 ≤ s ≤ e ≤ T`, `T` the total sample count, the scan (from the
all-zero seed, and in fact from any seed) ends with loop flag true,
`loop_start = s` and the derived `loop_length = e - s`, and the builder
returns a looped descriptor with `loop_start_sample = s` and
`loop_end_sample = e`. -/
theorem start_end_pair (env : environment) (streamFile : STREAMFILE)
    (filename : List Char) (callbacks_p : Option ov_callbacks) (start : Int)
    (vgm_inf : vgm_vorbis_info_t) (streamfile : STREAMFILE) (ovf : OggVorbis_File)
    (vgmstream : VGMSTREAM) (ks ke : String) (s e : Int)
    (hkeys : (ks = "LoopStart=" ∧ ke = "LoopEnd=") ∨ (ks = "LOOP_BEGIN=" ∧ ke = "LOOP_END="))
    (htags : ovf.user_comments = [tag ks (decimal s), tag ke (decimal e)])
    (h : builder_succeeds env streamFile filename callbacks_p start vgm_inf streamfile ovf
      vgmstream)
    (hs : 0 ≤ s) (hse : s ≤ e) (heT : e ≤ to_int32 ovf.pcm_total) :
    (scan_comments (loop_vars_init vgm_inf) ovf.user_comments).loop_flag = true ∧
    (scan_comments (loop_vars_init vgm_inf) ovf.user_comments).loop_start = s ∧
    (scan_comments (loop_vars_init vgm_inf) ovf.user_comments).loop_length_found = true ∧
    (scan_comments (loop_vars_init vgm_inf) ovf.user_comments).loop_length = e - s ∧
    ∃ r : VGMSTREAM,
      init_vgmstream_ogg_vorbis_callbacks env streamFile filename callbacks_p start vgm_inf
        = some r ∧
      r.loop_flag = true ∧ r.loop_start_sample = s ∧ r.loop_end_sample = e := by
  have hT := (to_int32_range ovf.pcm_total).2
  have hks : ks ∈ loop_start_keys := by
    rcases hkeys with ⟨h1, _⟩ | ⟨h1, _⟩ <;> rw [h1] <;> decide
  have hke : ke ∈ loop_end_keys := by
    rcases hkeys with ⟨_, h1⟩ | ⟨_, h1⟩ <;> rw [h1] <;> decide
  have hscan : scan_comments (loop_vars_init vgm_inf) ovf.user_comments =
      { loop_vars_init vgm_inf with
        loop_start := s, loop_flag := true, loop_length := e - s, loop_length_found := true } := by
    rw [htags]
    simp only [scan_comments, List.foldl_cons, List.foldl_nil]
    rw [scan_comment_start_decimal _ ks hks s hs (by omega), scan_comment_end _ ke hke,
      after_last_tag ke '=' (decimal e) (loop_end_keys_last ke hke)
        (not_mem_decimal e '=' (by decide) (by decide)),
      atol_decimal e (by omega) (by omega)]
    simp only [if_true]
    rw [to_int32_of_range (e - s) (by omega) (by omega)]
  refine ⟨by rw [hscan], by rw [hscan], by rw [hscan], by rw [hscan], ?_⟩
  refine ⟨_, builder_result env streamFile filename callbacks_p start vgm_inf streamfile ovf
    vgmstream h, ?_⟩
  have hl := (fill_vgmstream_loop vgmstream
    { ogg_vorbis_file := ovf, bitstream := 0,
      ov_streamfile := builder_streamfile streamfile start
        (builder_stream_size streamFile start vgm_inf) vgm_inf }
    (builder_stream_size streamFile start vgm_inf) vgm_inf
    (scan_comments (loop_vars_init vgm_inf) ovf.user_comments)).2.1 (by rw [hscan])
  refine ⟨hl.1, ?_, ?_⟩
  · rw [hl.2.1, hscan]
  · rw [hl.2.2, hscan]
    simp only [loop_end_candidate, if_true]
    rw [to_int32_of_range (s + (e - s)) (by omega) (by omega), min_eq_right (by omega)]
    omega

/-- Witness of C8: `["LoopStart=1000", "LoopEnd=5000"]` with 5000 total samples
gives loop start 1000, loop end 5000 and loop length 4000. -/
theorem start_end_pair_witness :
    (scan_comments (loop_vars_init inf_zero)
      ["LoopStart=1000".toList, "LoopEnd=5000".toList]).loop_length = 4000 ∧
    ∃ r : VGMSTREAM,
      init_vgmstream_ogg_vorbis_callbacks
        (sample_env ["LoopStart=1000".toList, "LoopEnd=5000".toList] 5000)
        sample_ogg_file sample_ogg_file.name none 0 inf_zero = some r ∧
      r.loop_flag = true ∧ r.loop_start_sample = 1000 ∧ r.loop_end_sample = 5000 := by
  have e1 : "LoopStart=1000".toList = tag "LoopStart=" (decimal 1000) := by decide
  have e2 : "LoopEnd=5000".toList = tag "LoopEnd=" (decimal 5000) := by decide
  rw [e1, e2]
  have h := start_end_pair
    (sample_env [tag "LoopStart=" (decimal 1000), tag "LoopEnd=" (decimal 5000)] 5000)
    sample_ogg_file sample_ogg_file.name none 0 inf_zero sample_ogg_file
    { channels := 2, rate := 44100,
      user_comments := [tag "LoopStart=" (decimal 1000), tag "LoopEnd=" (decimal 5000)],
      pcm_total := 5000 }
    { VGMSTREAM_zero with channels := 2, loop_flag := true }
    "LoopStart=" "LoopEnd=" 1000 5000 (Or.inl ⟨rfl, rfl⟩) rfl ⟨rfl, rfl, rfl, rfl, rfl⟩
    (by decide) (by decide) (by decide)
  exact ⟨h.2.2.2.1, h.2.2.2.2⟩

/-- C9: combined start,end tag.  When the decoder reports the single comment
`lp=a,b` (or `LOOPDEFS=a,b`, or `COMMENT=loop(a,b`) with decimal values `a`,
`b` in `int32` range and `b ≤ T`, `T` the total sample count, and the seed has
no loop length (as the all-zero seed), the scan ends with loop flag true,
`loop_start = a`, `loop_end = b`, end found, and the builder returns a looped
descriptor with `loop_start_sample = a` and `loop_end_sample = b`. -/
theorem combined_start_end (env : environment) (streamFile : STREAMFILE)
    (filename : List Char) (callbacks_p : Option ov_callbacks) (start : Int)
    (vgm_inf : vgm_vorbis_info_t) (streamfile : STREAMFILE) (ovf : OggVorbis_File)
    (vgmstream : VGMSTREAM) (key : String) (a b : Int)
    (hkey : key = "lp=" ∨ key = "LOOPDEFS=" ∨ key = "COMMENT=loop(")
    (hseed : vgm_inf.loop_length_found = false)
    (htags : ovf.user_comments = [tag key (decimal a ++ ',' :: decimal b)])
    (h : builder_succeeds env streamFile filename callbacks_p start vgm_inf streamfile ovf
      vgmstream)
    (ha : -2 ^ 31 ≤ a ∧ a < 2 ^ 31) (hb : -2 ^ 31 ≤ b ∧ b < 2 ^ 31)
    (hbT : b ≤ to_int32 ovf.pcm_total) :
    (scan_comments (loop_vars_init vgm_inf) ovf.user_comments).loop_flag = true ∧
    (scan_comments (loop_vars_init vgm_inf) ovf.user_comments).loop_start = a ∧
    (scan_comments (loop_vars_init vgm_inf) ovf.user_comments).loop_end_found = true ∧
    (scan_comments (loop_vars_init vgm_inf) ovf.user_comments).loop_end = b ∧
    ∃ r : VGMSTREAM,
      init_vgmstream_ogg_vorbis_callbacks env streamFile filename callbacks_p start vgm_inf
        = some r ∧
      r.loop_flag = true ∧ r.loop_start_sample = a ∧ r.loop_end_sample = b := by
  have hk : ∃ kc ∈ loop_pair_keys, kc.1 = key := by
    rcases hkey with h1 | h1 | h1 <;> rw [h1] <;> decide
  obtain ⟨kc, hkc, hkc1⟩ := hk
  have hscan : scan_comments (loop_vars_init vgm_inf) ovf.user_comments =
      { loop_vars_init vgm_inf with
        loop_flag := true, loop_start := a, loop_end := b, loop_end_found := true } := by
    rw [htags, ← hkc1]
    simp only [scan_comments, List.foldl_cons, List.foldl_nil]
    rw [scan_comment_pair_decimal _ kc hkc a b ha hb]
  refine ⟨by rw [hscan], by rw [hscan], by rw [hscan], by rw [hscan], ?_⟩
  refine ⟨_, builder_result env streamFile filename callbacks_p start vgm_inf streamfile ovf
    vgmstream h, ?_⟩
  have hl := (fill_vgmstream_loop vgmstream
    { ogg_vorbis_file := ovf, bitstream := 0,
      ov_streamfile := builder_streamfile streamfile start
        (builder_stream_size streamFile start vgm_inf) vgm_inf }
    (builder_stream_size streamFile start vgm_inf) vgm_inf
    (scan_comments (loop_vars_init vgm_inf) ovf.user_comments)).2.1 (by rw [hscan])
  refine ⟨hl.1, ?_, ?_⟩
  · rw [hl.2.1, hscan]
  · rw [hl.2.2, hscan]
    simp only [loop_end_candidate, loop_vars_init, hseed, Bool.false_eq_true, if_false, if_true]
    exact min_eq_right hbT

/-- Witness of C9: `["lp=100,9000"]` with 9000 total samples gives loop start
100, loop end 9000 and a looped descriptor. -/
theorem combined_start_end_witness :
    ∃ r : VGMSTREAM,
      init_vgmstream_ogg_vorbis_callbacks (sample_env ["lp=100,9000".toList] 9000)
        sample_ogg_file sample_ogg_file.name none 0 inf_zero = some r ∧
      r.loop_flag = true ∧ r.loop_start_sample = 100 ∧ r.loop_end_sample = 9000 := by
  have e : "lp=100,9000".toList = tag "lp=" (decimal 100 ++ ',' :: decimal 9000) := by decide
  rw [e]
  exact (combined_start_end
    (sample_env [tag "lp=" (decimal 100 ++ ',' :: decimal 9000)] 9000)
    sample_ogg_file sample_ogg_file.name none 0 inf_zero sample_ogg_file
    { channels := 2, rate := 44100,
      user_comments := [tag "lp=" (decimal 100 ++ ',' :: decimal 9000)], pcm_total := 9000 }
    { VGMSTREAM_zero with channels := 2, loop_flag := true }
    "lp=" 100 9000 (Or.inl rfl) rfl rfl ⟨rfl, rfl, rfl, rfl, rfl⟩
    ⟨by decide, by decide⟩ ⟨by decide, by decide⟩ (by decide)).2.2.2.2

/-! ## The detector -/

theorem for_loop_poke0_getElem? (g : Int → Nat → Nat) (count : Nat) (ptr : List Nat) (j : Nat) :
    (for_loop (fun i ptr => poke ptr i (g i)) count 0 ptr)[j]? =
      (ptr[j]?).map (fun b => if j < count then g j b % 256 else b) := by
  have e : (fun (i : Int) (ptr : List Nat) => poke ptr i (g i)) =
      (fun i ptr => poke ptr (i - 0) (g i)) := by
    funext i ptr; rw [Int.sub_zero]
  rw [e, for_loop_poke_getElem? 0 g count 0 ptr j (by omega)]
  congr 1
  funext b
  by_cases hj : j < count
  · rw [if_pos hj, if_pos (by omega), Int.zero_add]
  · rw [if_neg hj, if_neg (by omega)]

theorem um3_getElem? (ptr : List Nat) (size nmemb : Nat) (st : ov_datasource) (j : Nat)
    (h0 : 0 ≤ st.offset) (hb : size * nmemb < 2 ^ 64) :
    (um3_ogg_decryption_callback ptr size nmemb st)[j]? =
      (ptr[j]?).map (fun b =>
        if st.offset + (j : Int) < 0x800 ∧ j < size * nmemb then (b ^^^ 0xff) % 256 else b) := by
  have hm : (size * nmemb) % 2 ^ 64 = size * nmemb := Nat.mod_eq_of_lt hb
  have h255 : to_uint8 0xff = 0xff := by decide
  unfold um3_ogg_decryption_callback
  simp only [hm]
  by_cases hlt : st.offset < 0x800
  · rw [if_pos hlt, to_int32_of_range (0x800 - st.offset) (by omega) (by omega)]
    have hs : to_size_t (0x800 - st.offset) = (0x800 - st.offset).toNat := by
      unfold to_size_t; omega
    rw [hs, for_loop_poke0_getElem?]
    congr 1
    funext b
    simp only [xor_uint8, h255]
    split
    · rename_i hgt
      rw [to_int32_of_range ((size * nmemb : Nat) : Int) (by omega) (by omega)]
      by_cases hc : st.offset + (j : Int) < 0x800 ∧ j < size * nmemb
      · rw [if_pos hc, if_pos (by omega)]
      · rw [if_neg hc, if_neg (by omega)]
    · rename_i hgt
      by_cases hc : st.offset + (j : Int) < 0x800 ∧ j < size * nmemb
      · rw [if_pos hc, if_pos (by omega)]
      · rw [if_neg hc, if_neg (by omega)]
  · rw [if_neg hlt]
    have hc : ¬ (st.offset + (j : Int) < 0x800 ∧ j < size * nmemb) := by omega
    simp only [hc, if_false]
    cases ptr[j]? <;> rfl

theorem psychic_getElem? (ptr : List Nat) (size nmemb : Nat) (st : ov_datasource) (j : Nat)
    (hb : size * nmemb < 2 ^ 64) :
    (psychic_ogg_decryption_callback ptr size nmemb st)[j]? =
      (ptr[j]?).map (fun b => if j < size * nmemb then (b + 0x23) % 256 else b) := by
  have hm : (size * nmemb) % 2 ^ 64 = size * nmemb := Nat.mod_eq_of_lt hb
  unfold psychic_ogg_decryption_callback
  simp only [hm]
  rw [for_loop_poke0_getElem? (fun _ b => b + 0x23)]

theorem isd_getElem? (ptr : List Nat) (size nmemb : Nat) (st : ov_datasource) (j : Nat)
    (hb : size * nmemb < 2 ^ 64) :
    (isd_ogg_decryption_callback ptr size nmemb st)[j]? =
      (ptr[j]?).map (fun b =>
        if j < size * nmemb then
          (b ^^^ isd_key.getD ((st.offset + (j : Int)) % 16).toNat 0) % 256
        else b) := by
  have hm : (size * nmemb) % 2 ^ 64 = size * nmemb := Nat.mod_eq_of_lt hb
  have hk : ∀ k : Nat, to_uint8 (k : Int) = k % 256 := by
    intro k; unfold to_uint8; omega
  have hkey : ∀ i : Nat, isd_key.getD i 0 % 256 = isd_key.getD i 0 := by
    intro i
    by_cases hi : i < 16
    · interval_cases i <;> rfl
    · have : isd_key.getD i 0 = 0 := by
        rw [List.getD_eq_getElem?_getD, List.getElem?_eq_none (by simp [isd_key]; omega)]
        rfl
      rw [this]
  unfold isd_ogg_decryption_callback
  simp only [hm]
  rw [for_loop_poke0_getElem?
    (fun i b => xor_uint8 b (isd_key.getD ((st.offset + i) % 16).toNat 0))]
  simp only [xor_uint8, hk, hkey]

theorem sngw_getElem? (ptr : List Nat) (size nmemb : Nat) (st : ov_datasource) (j : Nat)
    (hb : size * nmemb < 2 ^ 64) :
    (sngw_ogg_decryption_callback ptr size nmemb st)[j]? =
      (ptr[j]?).map (fun b =>
        if j < size * nmemb then
          (if st.offset + (j : Int) < 0x04 then
            header_id.getD ((st.offset + (j : Int)) % 4).toNat 0
          else
            nibble_swap
              ((b ^^^ (put_32bitBE st.sngw_xor).getD ((st.offset + (j : Int)) % 4).toNat 0) % 256))
            % 256
        else b) := by
  have hm : (size * nmemb) % 2 ^ 64 = size * nmemb := Nat.mod_eq_of_lt hb
  have e : (fun (i : Int) (ptr : List Nat) =>
        if st.offset + i < 0x04 then
          poke ptr i (fun _ => header_id.getD ((st.offset + i) % 4).toNat 0)
        else
          poke ptr i (fun b =>
            let val := b ^^^ (put_32bitBE st.sngw_xor).getD ((st.offset + i) % 4).toNat 0
            nibble_swap (val % 256))) =
      (fun i ptr => poke ptr i ((fun (i : Int) (b : Nat) =>
        if st.offset + i < 0x04 then header_id.getD ((st.offset + i) % 4).toNat 0
        else nibble_swap
          ((b ^^^ (put_32bitBE st.sngw_xor).getD ((st.offset + i) % 4).toNat 0) % 256)) i)) := by
    funext i ptr
    by_cases h : st.offset + i < 0x04
    · simp only [h, if_true]
    · simp only [h, if_false]
  unfold sngw_ogg_decryption_callback
  simp only [hm]
  rw [e, for_loop_poke0_getElem?]


theorem getElem?_some_lt {l : List Nat} {j b : Nat} (h : l[j]? = some b) : j < l.length :=
  (List.getElem?_eq_some_iff.mp h).choose

theorem um3_pointwise (ptr : List Nat) (st : ov_datasource) (j : Nat)
    (h0 : 0 ≤ st.offset) (hlen : ptr.length < 2 ^ 64) :
    (um3_ogg_decryption_callback ptr 1 ptr.length st)[j]? =
      (ptr[j]?).map (um3_byte (st.offset + (j : Int))) := by
  rw [um3_getElem? ptr 1 ptr.length st j h0 (by omega)]
  cases hj : ptr[j]? with
  | none => rfl
  | some b =>
    have hjl := getElem?_some_lt hj
    simp only [Option.map_some', um3_byte]
    by_cases hp : st.offset + (j : Int) < 0x800
    · rw [if_pos ⟨hp, by omega⟩, if_pos hp]
    · rw [if_neg (fun h => hp h.1), if_neg hp]

theorem kovs_pointwise (ptr : List Nat) (st : ov_datasource) (j : Nat)
    (h0 : 0 ≤ st.offset) (hr : st.offset + (ptr.length : Int) < 2 ^ 31) :
    (kovs_ogg_decryption_callback ptr 1 ptr.length st)[j]? =
      (ptr[j]?).map (kovs_byte (st.offset + (j : Int))) := by
  rw [kovs_getElem? ptr 1 ptr.length st j h0 (by omega)]
  cases hj : ptr[j]? with
  | none => rfl
  | some b =>
    have hjl := getElem?_some_lt hj
    simp only [Option.map_some', kovs_byte]
    by_cases hp : st.offset + (j : Int) < 0x100
    · rw [if_pos ⟨hp, by omega⟩, if_pos hp]
    · rw [if_neg (fun h => hp h.1), if_neg hp]

theorem psychic_pointwise (ptr : List Nat) (st : ov_datasource) (j : Nat)
    (hlen : ptr.length < 2 ^ 64) :
    (psychic_ogg_decryption_callback ptr 1 ptr.length st)[j]? =
      (ptr[j]?).map psychic_byte := by
  rw [psychic_getElem? ptr 1 ptr.length st j (by omega)]
  cases hj : ptr[j]? with
  | none => rfl
  | some b =>
    have hjl := getElem?_some_lt hj
    simp only [Option.map_some', psychic_byte]
    rw [if_pos (by omega)]

theorem sngw_pointwise (ptr : List Nat) (st : ov_datasource) (j : Nat)
    (hlen : ptr.length < 2 ^ 64) :
    (sngw_ogg_decryption_callback ptr 1 ptr.length st)[j]? =
      (ptr[j]?).map (sngw_byte st.sngw_xor (st.offset + (j : Int))) := by
  rw [sngw_getElem? ptr 1 ptr.length st j (by omega)]
  cases hj : ptr[j]? with
  | none => rfl
  | some b =>
    have hjl := getElem?_some_lt hj
    simp only [Option.map_some', sngw_byte]
    rw [if_pos (by omega)]

theorem isd_pointwise (ptr : List Nat) (st : ov_datasource) (j : Nat)
    (hlen : ptr.length < 2 ^ 64) :
    (isd_ogg_decryption_callback ptr 1 ptr.length st)[j]? =
      (ptr[j]?).map (isd_byte (st.offset + (j : Int))) := by
  rw [isd_getElem? ptr 1 ptr.length st j (by omega)]
  cases hj : ptr[j]? with
  | none => rfl
  | some b =>
    have hjl := getElem?_some_lt hj
    simp only [Option.map_some', isd_byte]
    rw [if_pos (by omega)]

theorem xor_twice (b k : Nat) (hb : b < 256) (hk : k < 256) :
    ((b ^^^ k) % 256 ^^^ k) % 256 = b := by
  have h1 : b ^^^ k < 2 ^ 8 := Nat.xor_lt_two_pow (by omega) (by omega)
  have h2 : (b ^^^ k) % 256 = b ^^^ k := Nat.mod_eq_of_lt (by omega)
  rw [h2, Nat.xor_assoc, Nat.xor_self, Nat.xor_zero, Nat.mod_eq_of_lt hb]

theorem xor_byte_lt (b k : Nat) (hb : b < 256) (hk : k < 256) : (b ^^^ k) % 256 = b ^^^ k := by
  have h1 : b ^^^ k < 2 ^ 8 := Nat.xor_lt_two_pow (by omega) (by omega)
  exact Nat.mod_eq_of_lt (by omega)

theorem isd_key_lt (i : Nat) : isd_key.getD i 0 < 256 := by
  by_cases hi : i < 16
  · interval_cases i <;> decide
  · have : isd_key.getD i 0 = 0 := by
      rw [List.getD_eq_getElem?_getD, List.getElem?_eq_none (by simp [isd_key]; omega)]
      rfl
    rw [this]; decide

theorem map_getElem?_length {x a : List Nat} {f : Nat → Nat → Nat}
    (h : ∀ j, x[j]? = (a[j]?).map (f j)) : x.length = a.length := by
  apply Nat.le_antisymm
  · by_contra hlt
    have h1 := h a.length
    rw [List.getElem?_eq_none (Nat.le_refl _)] at h1
    have h2 : a.length < x.length := by omega
    rw [List.getElem?_eq_getElem h2] at h1
    exact Option.noConfusion h1
  · by_contra hlt
    have h1 := h x.length
    rw [List.getElem?_eq_none (Nat.le_refl _)] at h1
    have h2 : x.length < a.length := by omega
    rw [List.getElem?_eq_getElem h2] at h1
    exact Option.noConfusion h1

theorem append_of_pointwise (F : Int → Nat → Nat) (o : Int) (x y z a b : List Nat)
    (hx : ∀ j : Nat, x[j]? = ((a ++ b)[j]?).map (F (o + (j : Int))))
    (hy : ∀ j : Nat, y[j]? = (a[j]?).map (F (o + (j : Int))))
    (hz : ∀ j : Nat, z[j]? = (b[j]?).map (F (o + (a.length : Int) + (j : Int)))) :
    x = y ++ z := by
  have hyl : y.length = a.length := map_getElem?_length (f := fun j => F (o + (j : Int))) hy
  apply List.ext_getElem?
  intro j
  rw [hx j, List.getElem?_append, List.getElem?_append, hyl]
  by_cases hj : j < a.length
  · rw [if_pos hj, if_pos hj, hy j]
  · rw [if_neg hj, if_neg hj, hz (j - a.length)]
    have e : o + (a.length : Int) + ((j - a.length : Nat) : Int) = o + (j : Int) := by omega
    rw [e]

/-! ## The decryption callbacks: claims -/

/-- C13: XorFixedPrefix is an involution.  For every virtual offset `o ≥ 0` and
every buffer of bytes (length within `int` range), applying
`um3_ogg_decryption_callback` twice at the same offset restores the buffer;
one application xors with 0xFF exactly the bytes whose virtual offset `o + j`
is below 0x800 and leaves the others (and the length) as they are. -/
theorem um3_involution (ptr : List Nat) (st : ov_datasource)
    (h0 : 0 ≤ st.offset) (hlen : ptr.length < 2 ^ 31) (hbytes : ∀ b ∈ ptr, b < 256) :
    um3_ogg_decryption_callback (um3_ogg_decryption_callback ptr 1 ptr.length st)
      1 ptr.length st = ptr ∧
    (∀ j : Nat, (um3_ogg_decryption_callback ptr 1 ptr.length st)[j]? =
      (ptr[j]?).map (fun b => if st.offset + (j : Int) < 0x800 then b ^^^ 0xff else b)) ∧
    (um3_ogg_decryption_callback ptr 1 ptr.length st).length = ptr.length := by
  have hpt : ∀ j : Nat, (um3_ogg_decryption_callback ptr 1 ptr.length st)[j]? =
      (ptr[j]?).map (fun b => if st.offset + (j : Int) < 0x800 then b ^^^ 0xff else b) := by
    intro j
    rw [um3_pointwise ptr st j h0 (by omega)]
    cases hj : ptr[j]? with
    | none => rfl
    | some b =>
      have hb := hbytes b (List.getElem?_mem hj)
      simp only [Option.map_some', um3_byte]
      split
      · rw [xor_byte_lt b 0xff hb (by decide)]
      · rfl
  refine ⟨?_, hpt, map_getElem?_length (f := fun j b =>
    if st.offset + (j : Int) < 0x800 then b ^^^ 0xff else b) hpt⟩
  apply List.ext_getElem?
  intro j
  rw [um3_getElem? _ 1 ptr.length st j h0 (by omega), um3_pointwise ptr st j h0 (by omega)]
  cases hj : ptr[j]? with
  | none => rfl
  | some b =>
    have hb := hbytes b (List.getElem?_mem hj)
    have hjl := getElem?_some_lt hj
    simp only [Option.map_some', um3_byte]
    by_cases hp : st.offset + (j : Int) < 0x800
    · rw [if_pos hp, if_pos ⟨hp, by omega⟩, xor_twice b 0xff hb (by decide)]
    · rw [if_neg hp, if_neg (fun h => hp h.1)]

/-- Witness of C13: a 3-byte buffer read at virtual offset 0x7fe. -/
theorem um3_involution_witness :
    um3_ogg_decryption_callback
      (um3_ogg_decryption_callback [0x01, 0x02, 0x03] 1 3 (sample_datasource 0x7fe 0))
      1 3 (sample_datasource 0x7fe 0) = [0x01, 0x02, 0x03] :=
  (um3_involution [0x01, 0x02, 0x03] (sample_datasource 0x7fe 0)
    (by decide) (by decide) (by decide)).1

/-- C14: XorKeyedRepeating16 is an involution.  For every virtual offset
`o ≥ 0` and every buffer of bytes (length within `int` range), one application
of `isd_ogg_decryption_callback` maps the byte at index `j` to
`b[j] xor key[(o + j) mod 16]` for the fixed 16-byte table, and applying it
twice at the same offset restores the buffer. -/
theorem isd_involution (ptr : List Nat) (st : ov_datasource)
    (_h0 : 0 ≤ st.offset) (hlen : ptr.length < 2 ^ 31) (hbytes : ∀ b ∈ ptr, b < 256) :
    isd_ogg_decryption_callback (isd_ogg_decryption_callback ptr 1 ptr.length st)
      1 ptr.length st = ptr ∧
    (∀ j : Nat, (isd_ogg_decryption_callback ptr 1 ptr.length st)[j]? =
      (ptr[j]?).map (fun b =>
        b ^^^ [0xe0, 0x00, 0xe0, 0x00, 0xa0, 0x00, 0x00, 0x00,
               0xe0, 0x00, 0xe0, 0x80, 0x40, 0x40, 0x40, 0x00].getD
                 ((st.offset + (j : Int)) % 16).toNat 0)) := by
  constructor
  · apply List.ext_getElem?
    intro j
    rw [isd_getElem? _ 1 ptr.length st j (by omega), isd_pointwise ptr st j (by omega)]
    cases hj : ptr[j]? with
    | none => rfl
    | some b =>
      have hb := hbytes b (List.getElem?_mem hj)
      have hjl := getElem?_some_lt hj
      simp only [Option.map_some', isd_byte]
      rw [if_pos (by omega), xor_twice b _ hb (isd_key_lt _)]
  · intro j
    rw [isd_pointwise ptr st j (by omega)]
    cases hj : ptr[j]? with
    | none => rfl
    | some b =>
      have hb := hbytes b (List.getElem?_mem hj)
      simp only [Option.map_some', isd_byte]
      rw [xor_byte_lt b _ hb (isd_key_lt _)]
      rfl

/-- Witness of C14: a 3-byte buffer read at virtual offset 15. -/
theorem isd_involution_witness :
    isd_ogg_decryption_callback
      (isd_ogg_decryption_callback [0x01, 0x02, 0x03] 1 3 (sample_datasource 15 0))
      1 3 (sample_datasource 15 0) = [0x01, 0x02, 0x03] :=
  (isd_involution [0x01, 0x02, 0x03] (sample_datasource 15 0)
    (by decide) (by decide) (by decide)).1

/-- C15: XorKeyNibbleSwap restores the canonical magic.  For every key
`sngw_xor` and every buffer, each byte `sngw_ogg_decryption_callback` stores
at a virtual offset `p = o + j < 4` is `"OggS"[p]`, whatever the offset `o ≥ 0`
the read starts at; in particular a buffer of at least 4 bytes decoded at
virtual offset 0 starts with `O`, `g`, `g`, `S`, whatever the key and the
input bytes. -/
theorem sngw_restores_magic (ptr : List Nat) (st : ov_datasource)
    (h0 : 0 ≤ st.offset) (hlen : ptr.length < 2 ^ 64) :
    (∀ j : Nat, j < ptr.length → st.offset + (j : Int) < 4 →
      (sngw_ogg_decryption_callback ptr 1 ptr.length st)[j]? =
        some ([0x4f, 0x67, 0x67, 0x53].getD (st.offset + (j : Int)).toNat 0)) ∧
    (st.offset = 0 → 4 ≤ ptr.length →
      (sngw_ogg_decryption_callback ptr 1 ptr.length st).take 4 = [0x4f, 0x67, 0x67, 0x53]) := by
  have hpt : ∀ j : Nat, j < ptr.length → st.offset + (j : Int) < 4 →
      (sngw_ogg_decryption_callback ptr 1 ptr.length st)[j]? =
        some ([0x4f, 0x67, 0x67, 0x53].getD (st.offset + (j : Int)).toNat 0) := by
    intro j hj hp
    rw [sngw_pointwise ptr st j hlen, List.getElem?_eq_getElem hj]
    simp only [Option.map_some', sngw_byte, if_pos hp, header_id]
    have hmod : (st.offset + (j : Int)) % 4 = st.offset + (j : Int) := by omega
    rw [hmod]
    have hcases : (st.offset + (j : Int)).toNat < 4 := by omega
    generalize (st.offset + (j : Int)).toNat = p at hcases
    interval_cases p <;> rfl
  refine ⟨hpt, ?_⟩
  intro hz h4
  apply List.ext_getElem?
  intro j
  rw [List.getElem?_take]
  by_cases hj : j < 4
  · rw [if_pos hj, hpt j (by omega) (by omega), hz]
    interval_cases j <;> rfl
  · rw [if_neg hj, List.getElem?_eq_none (by simp; omega)]

/-- Witness of C15: a 5-byte buffer decoded at virtual offset 0 with a key. -/
theorem sngw_restores_magic_witness :
    (sngw_ogg_decryption_callback [0x11, 0x22, 0x33, 0x44, 0x55] 1 5
      (sample_datasource 0 0x11223344)).take 4 = [0x4f, 0x67, 0x67, 0x53] :=
  (sngw_restores_magic [0x11, 0x22, 0x33, 0x44, 0x55] (sample_datasource 0 0x11223344)
    (by decide) (by decide)).2 rfl (by decide)

/-- C16: XorPositional, pointwise.  For every virtual offset `o ≥ 0` and every
buffer of bytes with `o + length` within `int` range,
`kovs_ogg_decryption_callback` stores `b[j] xor (o + j)` at every index `j`
with `o + j < 0x100` and leaves `b[j]` at every other index, also when the
read straddles 0x100; a read that starts at or beyond 0x100 is left entirely
unchanged. -/
theorem kovs_pointwise_definition (ptr : List Nat) (st : ov_datasource)
    (h0 : 0 ≤ st.offset) (hr : st.offset + (ptr.length : Int) < 2 ^ 31)
    (hbytes : ∀ b ∈ ptr, b < 256) :
    (∀ j : Nat, (kovs_ogg_decryption_callback ptr 1 ptr.length st)[j]? =
      (ptr[j]?).map (fun b =>
        if st.offset + (j : Int) < 0x100 then b ^^^ (st.offset + (j : Int)).toNat else b)) ∧
    (kovs_ogg_decryption_callback ptr 1 ptr.length st).length = ptr.length ∧
    (0x100 ≤ st.offset → kovs_ogg_decryption_callback ptr 1 ptr.length st = ptr) := by
  have hpt : ∀ j : Nat, (kovs_ogg_decryption_callback ptr 1 ptr.length st)[j]? =
      (ptr[j]?).map (fun b =>
        if st.offset + (j : Int) < 0x100 then b ^^^ (st.offset + (j : Int)).toNat else b) := by
    intro j
    rw [kovs_pointwise ptr st j h0 hr]
    cases hj : ptr[j]? with
    | none => rfl
    | some b =>
      have hb := hbytes b (List.getElem?_mem hj)
      simp only [Option.map_some', kovs_byte]
      split
      · rw [xor_byte_lt b _ hb (by omega)]
      · rfl
  refine ⟨hpt, map_getElem?_length (f := fun j b =>
    if st.offset + (j : Int) < 0x100 then b ^^^ (st.offset + (j : Int)).toNat else b) hpt, ?_⟩
  intro hge
  apply List.ext_getElem?
  intro j
  rw [hpt j]
  cases ptr[j]? with
  | none => rfl
  | some b =>
    simp only [Option.map_some']
    rw [if_neg (by omega)]

/-- Witness of C16: a 4-byte read at virtual offset 0xfe, straddling 0x100; the
byte at index 1 (virtual offset 0xff) becomes `0x02 xor 0xff`, the byte at
index 2 (virtual offset 0x100) stays. -/
theorem kovs_pointwise_definition_witness :
    (kovs_ogg_decryption_callback [0x01, 0x02, 0x03, 0x04] 1 4
      (sample_datasource 0xfe 0))[1]? = some 0xfd ∧
    (kovs_ogg_decryption_callback [0x01, 0x02, 0x03, 0x04] 1 4
      (sample_datasource 0xfe 0))[2]? = some 0x03 :=
  ⟨((kovs_pointwise_definition [0x01, 0x02, 0x03, 0x04] (sample_datasource 0xfe 0)
      (by decide) (by decide) (by decide)).1 1).trans (by decide),
   ((kovs_pointwise_definition [0x01, 0x02, 0x03, 0x04] (sample_datasource 0xfe 0)
      (by decide) (by decide) (by decide)).1 2).trans (by decide)⟩

theorem chunk_independent_five :
    chunk_independent um3_ogg_decryption_callback ∧
    chunk_independent kovs_ogg_decryption_callback ∧
    chunk_independent psychic_ogg_decryption_callback ∧
    chunk_independent sngw_ogg_decryption_callback ∧
    chunk_independent isd_ogg_decryption_callback := by
  refine ⟨?_, ?_, ?_, ?_, ?_⟩ <;> intro a b st h0 hr <;>
    have hab : (a ++ b).length = a.length + b.length := List.length_append a b
  · exact append_of_pointwise um3_byte st.offset _ _ _ a b
      (fun j => um3_pointwise (a ++ b) st j h0 (by omega))
      (fun j => um3_pointwise a st j h0 (by omega))
      (fun j => um3_pointwise b { st with offset := st.offset + (a.length : Int) } j
        (by simp only []; omega) (by omega))
  · exact append_of_pointwise kovs_byte st.offset _ _ _ a b
      (fun j => kovs_pointwise (a ++ b) st j h0 (by rw [hab]; push_cast; omega))
      (fun j => kovs_pointwise a st j h0 (by omega))
      (fun j => kovs_pointwise b { st with offset := st.offset + (a.length : Int) } j
        (by simp only []; omega) (by simp only []; omega))
  · exact append_of_pointwise (fun _ => psychic_byte) st.offset _ _ _ a b
      (fun j => psychic_pointwise (a ++ b) st j (by omega))
      (fun j => psychic_pointwise a st j (by omega))
      (fun j => psychic_pointwise b { st with offset := st.offset + (a.length : Int) } j
        (by omega))
  · exact append_of_pointwise (sngw_byte st.sngw_xor) st.offset _ _ _ a b
      (fun j => sngw_pointwise (a ++ b) st j (by omega))
      (fun j => sngw_pointwise a st j (by omega))
      (fun j => sngw_pointwise b { st with offset := st.offset + (a.length : Int) } j
        (by omega))
  · exact append_of_pointwise isd_byte st.offset _ _ _ a b
      (fun j => isd_pointwise (a ++ b) st j (by omega))
      (fun j => isd_pointwise a st j (by omega))
      (fun j => isd_pointwise b { st with offset := st.offset + (a.length : Int) } j
        (by omega))

theorem ov_read_full (st : ogg_vorbis_streamfile) (name extension : List Char)
    (file : List Nat) (callback : decryption_callback_t) (n : Nat)
    (hsf : st.streamfile = STREAMFILE.ofBytes name extension file)
    (hcb : st.decryption_callback = some callback)
    (h0 : 0 ≤ st.offset) (hstart : 0 ≤ st.start) (hn : st.offset + (n : Int) ≤ st.size)
    (hfile : st.start + st.size ≤ (file.length : Int)) (hsz : st.size < 2 ^ 63) :
    ov_read_func 1 n st =
      { items_read := n
        ptr := callback ((file.drop (st.start + st.offset).toNat).take n) 1 n st.toov_datasource
        datasource := { st with offset := st.offset + (n : Int) } } := by
  have hm : ov_read_max_bytes 1 n st = n := by
    have e1 : to_size_t (st.size - st.offset) = (st.size - st.offset).toNat := by
      unfold to_size_t; omega
    have e2 : (1 * n) % 2 ^ 64 = n := by rw [Nat.one_mul]; exact Nat.mod_eq_of_lt (by omega)
    unfold ov_read_max_bytes
    simp only [e1, e2]
    split <;> omega
  have hnn : ¬ (st.start + st.offset < 0) := by omega
  have hraw : st.streamfile.read (st.start + st.offset) n
      = (file.drop (st.start + st.offset).toNat).take n := by
    rw [hsf]
    simp only [STREAMFILE.ofBytes]
    rw [if_neg hnn]
  have hlen : ((file.drop (st.start + st.offset).toNat).take n).length = n := by
    rw [List.length_take, List.length_drop]
    omega
  simp only [ov_read_func, hm, hraw, hcb, hlen, Nat.div_one, Nat.cast_one, mul_one]

/-- C19: the callbacks are independent of how reads are chunked.  Each of the
five decryption callbacks is `chunk_independent`: for every virtual offset
`o ≥ 0` and all buffers `a`, `b` with `o + |a| + |b|` within `int` range, the
callback at `o` on `a ++ b` is the callback at `o` on `a` followed by the
callback at `o + |a|` on `b` (for SNGW with the same key).  Hence, over a file
that holds the whole window, with such a callback, one read of `n1 + n2` bytes
returns the bytes of a read of `n1` bytes followed by those of a read of `n2`
bytes, and leaves the same state. -/
theorem callbacks_chunk_independent :
    chunk_independent um3_ogg_decryption_callback ∧
    chunk_independent kovs_ogg_decryption_callback ∧
    chunk_independent psychic_ogg_decryption_callback ∧
    chunk_independent sngw_ogg_decryption_callback ∧
    chunk_independent isd_ogg_decryption_callback ∧
    (∀ (callback : decryption_callback_t), chunk_independent callback →
      ∀ (st : ogg_vorbis_streamfile) (name extension : List Char) (file : List Nat)
        (n1 n2 : Nat),
        st.streamfile = STREAMFILE.ofBytes name extension file →
        st.decryption_callback = some callback →
        0 ≤ st.offset → 0 ≤ st.start →
        st.offset + (n1 : Int) + (n2 : Int) ≤ st.size →
        st.start + st.size ≤ (file.length : Int) → st.size < 2 ^ 31 →
        (ov_read_func 1 (n1 + n2) st).ptr =
          (ov_read_func 1 n1 st).ptr ++
            (ov_read_func 1 n2 (ov_read_func 1 n1 st).datasource).ptr ∧
        (ov_read_func 1 (n1 + n2) st).datasource =
          (ov_read_func 1 n2 (ov_read_func 1 n1 st).datasource).datasource) := by
  obtain ⟨h1, h2, h3, h4, h5⟩ := chunk_independent_five
  refine ⟨h1, h2, h3, h4, h5, ?_⟩
  intro callback hchunk st name extension file n1 n2 hsf hcb h0 hstart hn hfile hsz
  have r12 := ov_read_full st name extension file callback (n1 + n2) hsf hcb h0 hstart
    (by push_cast; omega) hfile (by omega)
  have r1 := ov_read_full st name extension file callback n1 hsf hcb h0 hstart
    (by omega) hfile (by omega)
  have r2 := ov_read_full { st with offset := st.offset + (n1 : Int) } name extension file
    callback n2 hsf hcb (by simp only []; omega) hstart (by simp only []; omega) hfile
    (by simp only []; omega)
  rw [r12, r1]
  simp only []
  rw [r2]
  simp only []
  have hl1 : ((file.drop (st.start + st.offset).toNat).take n1).length = n1 := by
    rw [List.length_take, List.length_drop]; omega
  have hl2 : ((file.drop (st.start + (st.offset + (n1 : Int))).toNat).take n2).length = n2 := by
    rw [List.length_take, List.length_drop]; omega
  have hsplit : (file.drop (st.start + st.offset).toNat).take (n1 + n2) =
      (file.drop (st.start + st.offset).toNat).take n1 ++
        (file.drop (st.start + (st.offset + (n1 : Int))).toNat).take n2 := by
    rw [List.take_add, List.drop_drop]
    congr 3
    omega
  have hc := hchunk ((file.drop (st.start + st.offset).toNat).take n1)
    ((file.drop (st.start + (st.offset + (n1 : Int))).toNat).take n2) st.toov_datasource h0
    (by rw [hl1, hl2]; omega)
  rw [List.length_append, hl1, hl2] at hc
  have e : st.offset + ((n1 + n2 : Nat) : Int) = st.offset + (n1 : Int) + (n2 : Int) := by
    push_cast; omega
  constructor
  · rw [hsplit, hc]
  · rw [e]

/-- Witness of C19: the KOVS callback on `[1, 2] ++ [3, 4]` at virtual offset
0xfe, and the sample KOVS session read in one piece of 5 bytes or in pieces of
2 and 3 bytes. -/
theorem callbacks_chunk_independent_witness :
    kovs_ogg_decryption_callback ([0x01, 0x02] ++ [0x03, 0x04]) 1
        ([0x01, 0x02] ++ [0x03, 0x04]).length (sample_datasource 0xfe 0) =
      kovs_ogg_decryption_callback [0x01, 0x02] 1 [0x01, 0x02].length (sample_datasource 0xfe 0) ++
        kovs_ogg_decryption_callback [0x03, 0x04] 1 [0x03, 0x04].length
          { sample_datasource 0xfe 0 with
            offset := (sample_datasource 0xfe 0).offset + ([0x01, 0x02].length : Int) } ∧
    (ov_read_func 1 (2 + 3) sample_kovs_state).ptr =
      (ov_read_func 1 2 sample_kovs_state).ptr ++
        (ov_read_func 1 3 (ov_read_func 1 2 sample_kovs_state).datasource).ptr :=
  ⟨callbacks_chunk_independent.2.1 [0x01, 0x02] [0x03, 0x04] (sample_datasource 0xfe 0)
      (by decide) (by decide),
   (callbacks_chunk_independent.2.2.2.2.2 kovs_ogg_decryption_callback
      callbacks_chunk_independent.2.1 sample_kovs_state "song.kvs".toList "kvs".toList
      sample_kovs_bytes 2 3 rfl rfl (by decide) (by decide) (by decide) (by decide)
      (by decide)).1⟩

/-! ## The detector: the other variants -/

theorem check_extension_ogg (streamFile : STREAMFILE)
    (h : check_extensions streamFile "ogg,logg" = true) :
    check_extension streamFile =
      some { is_ogg := true, is_um3 := false, is_kovs := false, is_sngw := false,
             is_isd := false } := by
  simp [check_extension, h]

/-- C20: the detector's obfuscation signature and the AddConstant transform
agree.  `psychic_ogg_decryption_callback`, at any offset, turns the four bytes
2c 44 44 30 into 4f 67 67 53 (`OggS`).  Hence for every file with extension
`ogg` or `logg` that starts with those four bytes, the detector selects that
callback with data start 0, and the first read of 4 bytes from the session the
builder sets up returns `OggS`. -/
theorem psychic_signature_magic (st : ov_datasource) :
    psychic_ogg_decryption_callback [0x2c, 0x44, 0x44, 0x30] 1 4 st
      = [0x4f, 0x67, 0x67, 0x53] ∧
    (∀ (name extension : List Char) (rest : List Nat),
      check_extensions
        (STREAMFILE.ofBytes name extension (0x2c :: 0x44 :: 0x44 :: 0x30 :: rest))
        "ogg,logg" = true →
      rest.length + 4 < 2 ^ 63 →
      ∃ args : builder_args,
        init_vgmstream_ogg_vorbis_args
          (STREAMFILE.ofBytes name extension (0x2c :: 0x44 :: 0x44 :: 0x30 :: rest)) = some args ∧
        args.start = 0 ∧
        args.vgm_inf.decryption_callback = some psychic_ogg_decryption_callback ∧
        args.vgm_inf.meta_type = .meta_OGG_PSYCHIC ∧
        (ov_read_func 1 4
          (builder_streamfile
            (STREAMFILE.ofBytes name extension (0x2c :: 0x44 :: 0x44 :: 0x30 :: rest))
            args.start
            (builder_stream_size
              (STREAMFILE.ofBytes name extension (0x2c :: 0x44 :: 0x44 :: 0x30 :: rest))
              args.start args.vgm_inf)
            args.vgm_inf)).ptr = [0x4f, 0x67, 0x67, 0x53]) := by
  have hcb : ∀ st : ov_datasource,
      psychic_ogg_decryption_callback [0x2c, 0x44, 0x44, 0x30] 1 4 st
        = [0x4f, 0x67, 0x67, 0x53] := by
    intro st; rfl
  refine ⟨hcb st, ?_⟩
  intro name extension rest hext hlen
  have hflags := check_extension_ogg _ hext
  have hword : read_32bitBE 0x00
      (STREAMFILE.ofBytes name extension (0x2c :: 0x44 :: 0x44 :: 0x30 :: rest)) = 0x2c444430 := by
    simp [read_32bitBE, STREAMFILE.ofBytes]
    decide
  refine ⟨_, by simp [init_vgmstream_ogg_vorbis_args, hflags, hword]; rfl, rfl, rfl, rfl, ?_⟩
  have hsize : builder_stream_size
      (STREAMFILE.ofBytes name extension (0x2c :: 0x44 :: 0x44 :: 0x30 :: rest)) 0
      { inf_zero with
        decryption_callback := some psychic_ogg_decryption_callback
        meta_type := .meta_OGG_PSYCHIC
        layout_type := .layout_ogg_vorbis } = rest.length + 4 := by
    simp only [builder_stream_size, inf_zero, STREAMFILE.ofBytes, List.length_cons, to_size_t]
    simp only [ne_eq, not_true_eq_false, if_false]
    omega
  have hread := ov_read_full
    (builder_streamfile
      (STREAMFILE.ofBytes name extension (0x2c :: 0x44 :: 0x44 :: 0x30 :: rest)) 0
      (rest.length + 4)
      { inf_zero with
        decryption_callback := some psychic_ogg_decryption_callback
        meta_type := .meta_OGG_PSYCHIC
        layout_type := .layout_ogg_vorbis })
    name extension (0x2c :: 0x44 :: 0x44 :: 0x30 :: rest) psychic_ogg_decryption_callback 4
    rfl rfl (Int.le_refl 0) (Int.le_refl 0)
    (by rw [builder_streamfile_size _ _ _ _ hlen]
        show (0 : Int) + ((4 : Nat) : Int) ≤ ((rest.length + 4 : Nat) : Int)
        push_cast; omega)
    (by rw [builder_streamfile_size _ _ _ _ hlen]
        show (0 : Int) + ((rest.length + 4 : Nat) : Int) ≤
          (((0x2c :: 0x44 :: 0x44 :: 0x30 :: rest).length : Nat) : Int)
        simp only [List.length_cons]; push_cast; omega)
    (by rw [builder_streamfile_size _ _ _ _ hlen]
        omega)
  show (ov_read_func 1 4
    (builder_streamfile
      (STREAMFILE.ofBytes name extension (0x2c :: 0x44 :: 0x44 :: 0x30 :: rest)) 0
      (builder_stream_size
        (STREAMFILE.ofBytes name extension (0x2c :: 0x44 :: 0x44 :: 0x30 :: rest)) 0
        { inf_zero with
          decryption_callback := some psychic_ogg_decryption_callback
          meta_type := .meta_OGG_PSYCHIC
          layout_type := .layout_ogg_vorbis })
      { inf_zero with
        decryption_callback := some psychic_ogg_decryption_callback
        meta_type := .meta_OGG_PSYCHIC
        layout_type := .layout_ogg_vorbis })).ptr = [0x4f, 0x67, 0x67, 0x53]
  rw [hsize, hread]
  rfl

/-- Witness of C20: the sample Psychic file. -/
theorem psychic_signature_magic_witness :
    ∃ args : builder_args,
      init_vgmstream_ogg_vorbis_args sample_psychic_file = some args ∧
      args.start = 0 ∧
      args.vgm_inf.decryption_callback = some psychic_ogg_decryption_callback ∧
      args.vgm_inf.meta_type = .meta_OGG_PSYCHIC ∧
      (ov_read_func 1 4
        (builder_streamfile sample_psychic_file args.start
          (builder_stream_size sample_psychic_file args.start args.vgm_inf)
          args.vgm_inf)).ptr = [0x4f, 0x67, 0x67, 0x53] :=
  (psychic_signature_magic (sample_datasource 0 0)).2 "song.ogg".toList "ogg".toList
    [0xdd, 0xdf] (by decide) (by decide)

/-! ## Loop comments: length and end tags -/

theorem scan_comment_length_decimal (v : loop_vars) (l : Int)
    (h0 : -2 ^ 31 ≤ l) (h1 : l < 2 ^ 31) :
    scan_comment v (tag "LOOPLENGTH=" (decimal l)) =
      { v with loop_length := l, loop_length_found := true } := by
  have hlast : ("LOOPLENGTH=" : String).toList = ("LOOPLENGTH=" : String).toList.dropLast ++ ['='] := by
    decide
  have hbranch : ∀ value : List Char, scan_comment v (tag "LOOPLENGTH=" value) =
      { v with
        loop_length := to_int32 (atol (after_last (tag "LOOPLENGTH=" value) '='))
        loop_length_found := true } := by
    intro value
    simp [scan_comment, starts_with, tag, String.toList]
  rw [hbranch, after_last_tag "LOOPLENGTH=" '=' (decimal l) hlast
    (not_mem_decimal l '=' (by decide) (by decide)), atol_decimal l (by omega) (by omega),
    to_int32_of_range l h0 h1]

/-- C17 (as stated, refuted): the loop values are `int32_t`.  With the unlooped
all-zero seed and `s = 2^31`, `l = 0`, both orders of `LOOPSTART=2147483648`
and `LOOPLENGTH=0` leave the loop flag false and `loop_start = -2^31`: the
value does not fit the variable `loop_start`, so `loop_start >= 0` fails.
With `s = 2147483647`, `l = 1` and 5000 total samples both orders give a
looped descriptor whose loop end is the wrapped sum `-2147483648`, not
`min(s + l, 5000) = 5000`. -/
theorem length_before_start_counterexample :
    "LOOPSTART=2147483648".toList = tag "LOOPSTART=" (decimal 2147483648) ∧
    "LOOPLENGTH=0".toList = tag "LOOPLENGTH=" (decimal 0) ∧
    scan_comments (loop_vars_init inf_zero)
        ["LOOPLENGTH=0".toList, "LOOPSTART=2147483648".toList] =
      { loop_flag := false, loop_start := -2147483648, loop_length_found := true,
        loop_length := 0, loop_end_found := false, loop_end := 0 } ∧
    scan_comments (loop_vars_init inf_zero)
        ["LOOPSTART=2147483648".toList, "LOOPLENGTH=0".toList] =
      { loop_flag := false, loop_start := -2147483648, loop_length_found := true,
        loop_length := 0, loop_end_found := false, loop_end := 0 } ∧
    "LOOPSTART=2147483647".toList = tag "LOOPSTART=" (decimal 2147483647) ∧
    "LOOPLENGTH=1".toList = tag "LOOPLENGTH=" (decimal 1) ∧
    (init_vgmstream_ogg_vorbis_callbacks
        (sample_env ["LOOPLENGTH=1".toList, "LOOPSTART=2147483647".toList] 5000)
        sample_ogg_file sample_ogg_file.name none 0 inf_zero).map
        (fun r => (r.loop_flag, r.loop_start_sample, r.loop_end_sample))
      = some (true, 2147483647, -2147483648) ∧
    (init_vgmstream_ogg_vorbis_callbacks
        (sample_env ["LOOPSTART=2147483647".toList, "LOOPLENGTH=1".toList] 5000)
        sample_ogg_file sample_ogg_file.name none 0 inf_zero).map
        (fun r => (r.loop_flag, r.loop_start_sample, r.loop_end_sample))
      = some (true, 2147483647, -2147483648) ∧
    min ((2147483647 : Int) + 1) 5000 = 5000 := by
  decide

/-- C17 (amended): length tag before start tag.  With an unlooped seed, for all
decimals `s ≥ 0` and `l ≥ 0` with `s + l < 2^31` and every total sample count
`T`: when the decoder reports `["LOOPLENGTH=l", "LOOPSTART=s"]` or
`["LOOPSTART=s", "LOOPLENGTH=l"]`, the scan ends with loop flag true,
`loop_start = s`, `loop_length = l` found, and the descriptor is looped with
`loop_start_sample = s` and `loop_end_sample = min(s + l, T)`; when it reports
`["LOOPLENGTH=l"]` alone, the length is stored and marked found, the loop flag
stays false, and the builder leaves loop flag and loop bounds of the
descriptor as `allocate_vgmstream` returned them. -/
theorem length_before_start (env : environment) (streamFile : STREAMFILE)
    (filename : List Char) (callbacks_p : Option ov_callbacks) (start : Int)
    (vgm_inf : vgm_vorbis_info_t) (streamfile : STREAMFILE) (ovf : OggVorbis_File)
    (vgmstream : VGMSTREAM) (s l : Int)
    (hseed : vgm_inf.loop_flag = false)
    (h : builder_succeeds env streamFile filename callbacks_p start vgm_inf streamfile ovf
      vgmstream)
    (hs : 0 ≤ s) (hl : 0 ≤ l) (hsl : s + l < 2 ^ 31) :
    ((ovf.user_comments = [tag "LOOPLENGTH=" (decimal l), tag "LOOPSTART=" (decimal s)] ∨
      ovf.user_comments = [tag "LOOPSTART=" (decimal s), tag "LOOPLENGTH=" (decimal l)]) →
      (scan_comments (loop_vars_init vgm_inf) ovf.user_comments).loop_flag = true ∧
      (scan_comments (loop_vars_init vgm_inf) ovf.user_comments).loop_start = s ∧
      (scan_comments (loop_vars_init vgm_inf) ovf.user_comments).loop_length_found = true ∧
      (scan_comments (loop_vars_init vgm_inf) ovf.user_comments).loop_length = l ∧
      ∃ r : VGMSTREAM,
        init_vgmstream_ogg_vorbis_callbacks env streamFile filename callbacks_p start vgm_inf
          = some r ∧
        r.loop_flag = true ∧ r.loop_start_sample = s ∧
        r.loop_end_sample = min (s + l) (to_int32 ovf.pcm_total)) ∧
    (ovf.user_comments = [tag "LOOPLENGTH=" (decimal l)] →
      (scan_comments (loop_vars_init vgm_inf) ovf.user_comments).loop_flag = false ∧
      (scan_comments (loop_vars_init vgm_inf) ovf.user_comments).loop_length_found = true ∧
      (scan_comments (loop_vars_init vgm_inf) ovf.user_comments).loop_length = l ∧
      ∃ r : VGMSTREAM,
        init_vgmstream_ogg_vorbis_callbacks env streamFile filename callbacks_p start vgm_inf
          = some r ∧
        r.loop_flag = vgmstream.loop_flag ∧
        r.loop_start_sample = vgmstream.loop_start_sample ∧
        r.loop_end_sample = vgmstream.loop_end_sample) := by
  have hres := builder_result env streamFile filename callbacks_p start vgm_inf streamfile ovf
    vgmstream h
  have hfill := fill_vgmstream_loop vgmstream
    { ogg_vorbis_file := ovf, bitstream := 0,
      ov_streamfile := builder_streamfile streamfile start
        (builder_stream_size streamFile start vgm_inf) vgm_inf }
    (builder_stream_size streamFile start vgm_inf) vgm_inf
    (scan_comments (loop_vars_init vgm_inf) ovf.user_comments)
  constructor
  · intro htags
    have hscan : scan_comments (loop_vars_init vgm_inf) ovf.user_comments =
        { loop_vars_init vgm_inf with
          loop_start := s, loop_flag := true, loop_length := l, loop_length_found := true } := by
      rcases htags with ht | ht
      · rw [ht]
        simp only [scan_comments, List.foldl_cons, List.foldl_nil]
        rw [scan_comment_length_decimal _ l (by omega) (by omega),
          scan_comment_start_decimal _ "LOOPSTART=" (by decide) s hs (by omega)]
      · rw [ht]
        simp only [scan_comments, List.foldl_cons, List.foldl_nil]
        rw [scan_comment_start_decimal _ "LOOPSTART=" (by decide) s hs (by omega),
          scan_comment_length_decimal _ l (by omega) (by omega)]
    refine ⟨by rw [hscan], by rw [hscan], by rw [hscan], by rw [hscan], _, hres, ?_⟩
    have hl' := hfill.2.1 (by rw [hscan])
    refine ⟨hl'.1, ?_, ?_⟩
    · rw [hl'.2.1, hscan]
    · rw [hl'.2.2, hscan]
      simp only [loop_end_candidate, if_true]
      rw [to_int32_of_range (s + l) (by omega) hsl]
      exact min_comm _ _
  · intro htags
    have hscan : scan_comments (loop_vars_init vgm_inf) ovf.user_comments =
        { loop_vars_init vgm_inf with loop_length := l, loop_length_found := true } := by
      rw [htags]
      simp only [scan_comments, List.foldl_cons, List.foldl_nil]
      rw [scan_comment_length_decimal _ l (by omega) (by omega)]
    have hflag : (scan_comments (loop_vars_init vgm_inf) ovf.user_comments).loop_flag = false := by
      rw [hscan]; exact hseed
    exact ⟨hflag, by rw [hscan], by rw [hscan], _, hres, hfill.2.2 hflag⟩

/-- Witness of C17 (amended): `["LOOPLENGTH=3000", "LOOPSTART=1000"]` with 5000
total samples gives a loop from 1000 to 4000. -/
theorem length_before_start_witness :
    ∃ r : VGMSTREAM,
      init_vgmstream_ogg_vorbis_callbacks
        (sample_env ["LOOPLENGTH=3000".toList, "LOOPSTART=1000".toList] 5000)
        sample_ogg_file sample_ogg_file.name none 0 inf_zero = some r ∧
      r.loop_flag = true ∧ r.loop_start_sample = 1000 ∧ r.loop_end_sample = 4000 := by
  have e1 : "LOOPLENGTH=3000".toList = tag "LOOPLENGTH=" (decimal 3000) := by decide
  have e2 : "LOOPSTART=1000".toList = tag "LOOPSTART=" (decimal 1000) := by decide
  rw [e1, e2]
  exact ((length_before_start
    (sample_env [tag "LOOPLENGTH=" (decimal 3000), tag "LOOPSTART=" (decimal 1000)] 5000)
    sample_ogg_file sample_ogg_file.name none 0 inf_zero sample_ogg_file
    { channels := 2, rate := 44100,
      user_comments := [tag "LOOPLENGTH=" (decimal 3000), tag "LOOPSTART=" (decimal 1000)],
      pcm_total := 5000 }
    { VGMSTREAM_zero with channels := 2, loop_flag := true }
    1000 3000 rfl ⟨rfl, rfl, rfl, rfl, rfl⟩
    (by decide) (by decide) (by decide)).1 (Or.inl rfl)).2.2.2.2

end OggVorbis
